import Mathlib

/-!
Ghostwire — shallow embedding and verification

This file embeds the core components of the ghostwire repository
(an in-cluster L4 traffic switcher) in Lean 4 and proves properties of
the embedded code.

Components embedded:
* the role poller (`internal/k8s`, `Poller.pollOnce`);
* the readiness checker (`internal/metrics`, `HealthChecker`);
* the packet-filter controller (`internal/iptables`: `AddJump`,
  `RemoveJump`, `EnsureChain`, `AddDNATRules`) over an abstract executor;
* the watcher's jump manager (`internal/cmd/watcher.go`,
  `jumpManager.OnTransition`);
* the audit-file line counter (`internal/metrics/dnatmap.go`,
  `CountDNATMappings`) and the audit writer (`WriteDNATMap`, whose
  implementation is absent from the sources; it is modelled from the
  specification and from the content pinned by `TestWriteDNATMap`).

Effectful Go code is embedded as explicit state passing: subprocess
invocations become commands interpreted by an abstract executor over an
arbitrary state type, and the process state (command trace, log records,
the process-wide IPv6 failure counter, the metrics bundle) is threaded
through a small state-and-error monad `Eff`.
-/

namespace Ghostwire

/-! ## Role poller (`internal/k8s`, `part_015`)

`Poller.pollOnce` reads the label and, on a successful read, updates the
stored role under a lock and possibly invokes the transition handler.
The embedding covers the successful-read path: the read value is an
input, and the (error-swallowed) handler call is returned as an optional
`(previous, current)` invocation request.  A failed read leaves the state
untouched in the Go code, so it is the identity here and is not modelled
separately. -/

/-- Poller configuration: the recognized `active`/`preview` values and
whether a transition handler was supplied (`cfg.TransitionHandler != nil`). -/
structure PollerCfg where
  activeValue : String
  previewValue : String
  handlerPresent : Bool
deriving Repr, DecidableEq

/-- `Poller.isRecognizedRole`: a value is recognized iff it equals the
configured active or preview string. -/
def isRecognizedRole (cfg : PollerCfg) (role : String) : Bool :=
  role == cfg.activeValue || role == cfg.previewValue

/-- The poller's guarded state: `lastRole` and `observedRole`. -/
structure PollerState where
  lastRole : String
  observedRole : Bool
deriving Repr, DecidableEq

/-- Zero value of the poller state (Go zero value: `""`, `false`). -/
def initialPollerState : PollerState := ⟨"", false⟩

/-- Embedding of `Poller.pollOnce` (successful-read path) on the observed
label value.  Returns the updated state and the handler invocation
`(previous, current)` performed by this poll, if any.  Mirrors the Go
branches: first observation / unchanged value / changed value, with the
handler invoked on a recognized first observation (with empty previous)
and on a change where both values are recognized. -/
def pollOnce (cfg : PollerCfg) (s : PollerState) (labelValue : String) :
    PollerState × Option (String × String) :=
  let previousValue := s.lastRole
  let previousRecognized := isRecognizedRole cfg previousValue
  let currentRecognized := isRecognizedRole cfg labelValue
  let firstObservation := !s.observedRole
  if firstObservation then
    (⟨labelValue, true⟩,
      if currentRecognized && cfg.handlerPresent then some ("", labelValue) else none)
  else if previousValue == labelValue then
    (s, none)
  else
    (⟨labelValue, true⟩,
      if previousRecognized && currentRecognized && cfg.handlerPresent then
        some (previousValue, labelValue)
      else none)

/-- A whole poll sequence of successful reads: fold `pollOnce`, collecting
the handler invocations in order. -/
def pollSeq (cfg : PollerCfg) (s : PollerState) :
    List String → PollerState × List (String × String)
  | [] => (s, [])
  | v :: rest =>
    let r := pollOnce cfg s v
    let t := pollSeq cfg r.1 rest
    (t.1, r.2.toList ++ t.2)

/-! ## Readiness checker (`internal/metrics`, `part_002`) -/

/-- The two readiness flags guarded by `HealthChecker`'s lock. -/
structure HealthState where
  chainVerified : Bool
  labelsRead : Bool
deriving Repr, DecidableEq

/-- `NewHealthChecker` starts with both flags clear. -/
def initialHealthState : HealthState := ⟨false, false⟩

/-- The only two operations in the source that write the flags:
`SetChainVerified` and `SetLabelsRead`. -/
inductive HealthOp where
  | setChainVerified
  | setLabelsRead
deriving Repr, DecidableEq

/-- Apply one flag write (`SetChainVerified` / `SetLabelsRead`). -/
def healthStep (s : HealthState) : HealthOp → HealthState
  | .setChainVerified => { s with chainVerified := true }
  | .setLabelsRead => { s with labelsRead := true }

/-- Apply a sequence of flag writes in order. -/
def healthSteps (s : HealthState) (ops : List HealthOp) : HealthState :=
  ops.foldl healthStep s

/-- `HealthChecker.IsHealthy`: both flags set. -/
def isHealthy (s : HealthState) : Bool :=
  s.chainVerified && s.labelsRead

/-- The `/healthz` handler body: status code and response text. -/
def healthzResponse (s : HealthState) : Nat × String :=
  if s.chainVerified && s.labelsRead then (200, "OK\n")
  else (503, "Service Unavailable\n")

/-! ## Packet-filter controller: command model

The `internal/iptables` package drives the kernel tables through an
injected `Executor` interface:

* `Run(ctx, binary, args...) error`
* `ChainExists(ctx, table, chain) (bool, error)`
* `ChainExists6(ctx, table, chain) (bool, error)`

The binary (`iptables` vs `ip6tables`) is the address family; the
argument vectors issued by the package are captured by the structured
command type `Op` below (the constant `-w 5` wait flag, present on every
invocation, is not repeated in the model).  A `Run` error is either a
`CommandError` wrapping a process exit code, which the package inspects
(`exit 1` signals absence on `-C` probes), or some other failure. -/

/-- Address family, i.e. which administration binary is invoked. -/
inductive Fam where
  | v4
  | v6
deriving Repr, DecidableEq

/-- A rule as it appears in an argument vector (the part after the chain
selector).  `jump c` is `-j c`; `dnat d p dp td` is
`-d d -p p --dport dp -j DNAT --to-destination td`; `ret c` is
`-d c -j RETURN`; `other` stands for a pre-existing foreign rule. -/
inductive Rule where
  | jump (target : String)
  | dnat (dest : String) (proto : String) (dport : Nat) (toDest : String)
  | ret (cidr : String)
  | other (tag : Nat)
deriving Repr, DecidableEq

/-- One `Run` invocation's argument vector, structured. -/
inductive Op where
  | check (table chain : String) (r : Rule)
  | insert (table chain : String) (pos : Nat) (r : Rule)
  | delete (table chain : String) (r : Rule)
  | append (table chain : String) (r : Rule)
  | flush (table chain : String)
  | newChain (table chain : String)
deriving Repr, DecidableEq

/-- Outcome of a `Run` invocation: success, a `CommandError` carrying a
process exit code, or any other failure. -/
inductive RunResult where
  | ok
  | exit (code : Nat)
  | fail
deriving Repr, DecidableEq

/-- The executor seam (`iptables.Executor`), over an arbitrary executor
state `σ`.  `ChainExists`/`ChainExists6` return a boolean or an error. -/
structure Executor (σ : Type) where
  run : Fam → Op → σ → σ × RunResult
  chainExists : String → String → σ → σ × Except Unit Bool
  chainExists6 : String → String → σ → σ × Except Unit Bool

/-- Log levels of `log/slog` as used by the sources. -/
inductive LogLevel where
  | debug
  | info
  | warn
  | error
deriving Repr, DecidableEq

/-- A structured log record: level, message, and the dynamic attribute
values that the call site passes (as strings). -/
structure LogEvent where
  level : LogLevel
  msg : String
  attrs : List String
deriving Repr, DecidableEq

/-- The watcher's metrics bundle (`internal/metrics.Metrics`): the jump
activation gauge and the labelled error counter vector.  The gauge only
ever receives `Set(1)` / `Set(0)`, so its value is kept as a natural
number; the counter vector is an association list label → count. -/
structure Metrics where
  jumpActive : Nat
  errors : List (String × Nat)
deriving Repr, DecidableEq

/-- `CounterVec.WithLabelValues(label).Inc()`: bump the counter for a
label, creating it at 1 if absent. -/
def incCounter : List (String × Nat) → String → List (String × Nat)
  | [], k => [(k, 1)]
  | (k1, n) :: rest, k =>
    if k1 = k then (k1, n + 1) :: rest else (k1, n) :: incCounter rest k

/-- Read a counter value (0 when the label was never incremented). -/
def getCounter : List (String × Nat) → String → Nat
  | [], _ => 0
  | (k1, n) :: rest, k => if k1 = k then n else getCounter rest k

/-- `Metrics.SetJumpActive`. -/
def Metrics.setJumpActive (m : Metrics) (active : Bool) : Metrics :=
  { m with jumpActive := if active then 1 else 0 }

/-- `Metrics.IncrementError`. -/
def Metrics.incrementError (m : Metrics) (errorType : String) : Metrics :=
  { m with errors := incCounter m.errors errorType }

/-- Read an error counter of the bundle. -/
def Metrics.errCount (m : Metrics) (errorType : String) : Nat :=
  getCounter m.errors errorType

/-- Process state threaded through the embedded effectful functions: the
executor's state, the trace of `Run` invocations issued so far, the log
records emitted, the process-wide `ipv6ChainFailureCount`, and the
metrics bundle. -/
structure St (σ : Type) where
  exec : σ
  trace : List (Fam × Op)
  logs : List LogEvent
  ipv6ChainFailures : Nat
  metrics : Metrics

/-- Wrap an executor state into a fresh process state (empty trace and
logs, counter zero, zero metrics). -/
def mkSt {σ : Type} (e : σ) : St σ :=
  ⟨e, [], [], 0, ⟨0, []⟩⟩

/-- State-and-error monad for the embedding: Go functions returning
`error` become `Eff σ Unit`; an early `return err` is the `error` case,
which aborts the rest of the computation while keeping the state. -/
def Eff (σ : Type) (α : Type) : Type :=
  St σ → St σ × Except String α

/-- Monadic `pure`. -/
def Eff.pure {σ α : Type} (a : α) : Eff σ α := fun s => (s, .ok a)

/-- Monadic `bind`: sequence two steps, short-circuiting on `error`. -/
def Eff.bind {σ α β : Type} (x : Eff σ α) (f : α → Eff σ β) : Eff σ β :=
  fun s =>
    match x s with
    | (s1, .ok a) => f a s1
    | (s1, .error e) => (s1, .error e)

instance {σ : Type} : Monad (Eff σ) where
  pure := Eff.pure
  bind := Eff.bind

/-- Go `return fmt.Errorf(...)` with a non-nil error. -/
def throwErr {σ α : Type} (msg : String) : Eff σ α := fun s => (s, .error msg)

/-- Go `if err := ctx.Err(); err != nil { return err }`; the boolean
input says whether the context is cancelled. -/
def checkCtx {σ : Type} (ctx : Bool) : Eff σ Unit :=
  if ctx then throwErr "context canceled" else Eff.pure ()

/-- Emit a log record. -/
def logAt {σ : Type} (level : LogLevel) (msg : String) (attrs : List String) :
    Eff σ Unit :=
  fun s => ({ s with logs := s.logs ++ [⟨level, msg, attrs⟩] }, .ok ())

/-- `executor.Run(ctx, binary, args...)`: perform the command on the
executor state, record it in the trace, and return its `RunResult`. -/
def runCmd {σ : Type} (E : Executor σ) (fam : Fam) (op : Op) : Eff σ RunResult :=
  fun s =>
    let p := E.run fam op s.exec
    ({ s with exec := p.1, trace := s.trace ++ [(fam, op)] }, .ok p.2)

/-- `executor.ChainExists` / `ChainExists6`, selected by `six`. -/
def runChainExists {σ : Type} (E : Executor σ) (six : Bool)
    (table chain : String) : Eff σ (Except Unit Bool) :=
  fun s =>
    let p := (if six then E.chainExists6 else E.chainExists) table chain s.exec
    ({ s with exec := p.1 }, .ok p.2)

/-- Go error-as-value: run a sub-computation and hand its outcome back
to the caller instead of short-circuiting (`if err := f(); err != nil`). -/
def tryEff {σ α : Type} (x : Eff σ α) : Eff σ (Except String α) :=
  fun s =>
    match x s with
    | (s1, .ok a) => (s1, .ok (.ok a))
    | (s1, .error e) => (s1, .ok (.error e))

/-- Increment the process-wide `ipv6ChainFailureCount`. -/
def incIPv6Failures {σ : Type} : Eff σ Unit :=
  fun s => ({ s with ipv6ChainFailures := s.ipv6ChainFailures + 1 }, .ok ())

/-- `j.metrics.IncrementError(kind)` inside the watcher. -/
def incrementErrorE {σ : Type} (errorType : String) : Eff σ Unit :=
  fun s => ({ s with metrics := s.metrics.incrementError errorType }, .ok ())

/-- `j.metrics.SetJumpActive(b)` inside the watcher. -/
def setJumpActiveE {σ : Type} (active : Bool) : Eff σ Unit :=
  fun s => ({ s with metrics := s.metrics.setJumpActive active }, .ok ())

/-! ## Packet-filter controller: the embedded operations (`part_006`,
`rules.go`) -/

/-- `jumpExistsWithBinary`: probe `-C hook -j chain` with the given
family's binary.  `Run` success means present; a `CommandError` whose
exit code is 1 means absent; anything else is an error (returned as a
value, as in Go). -/
def jumpExistsWithBinary {σ : Type} (E : Executor σ) (fam : Fam)
    (table hook chain : String) : Eff σ (Except String Bool) := do
  let r ← runCmd E fam (.check table hook (.jump chain))
  match r with
  | .ok => Eff.pure (.ok true)
  | .exit 1 => Eff.pure (.ok false)
  | .exit _ => Eff.pure (.error "command failed")
  | .fail => Eff.pure (.error "command failed")

/-- `JumpExists`: IPv4 probe, wrapping probe errors. -/
def jumpExists {σ : Type} (E : Executor σ) (ctx : Bool)
    (table hook chain : String) : Eff σ Bool := do
  checkCtx ctx
  let r ← jumpExistsWithBinary E .v4 table hook chain
  match r with
  | .ok exists1 => Eff.pure exists1
  | .error e => throwErr ("check jump existence: " ++ e)

/-- `AddJump`: if the IPv4 jump is absent, insert it at position 1 of the
hook chain (`-I hook 1 -j chain`); if present, no-op.  When `ipv6` is
set and the IPv4 insert happened, repeat on the IPv6 table, tolerating
every IPv6 failure (logged at warn, never returned). -/
def addJump {σ : Type} (E : Executor σ) (ctx : Bool)
    (table hook chain : String) (ipv6 : Bool) : Eff σ Unit := do
  checkCtx ctx
  let ex ← tryEff (jumpExists E ctx table hook chain)
  match ex with
  | .error e => throwErr ("determine jump existence: " ++ e)
  | .ok true => logAt .debug "jump rule already present" [table, hook, chain]
  | .ok false => do
    logAt .info "adding jump rule" [table, hook, chain]
    let r ← runCmd E .v4 (.insert table hook 1 (.jump chain))
    match r with
    | .ok =>
      if ipv6 then do
        let e6 ← jumpExistsWithBinary E .v6 table hook chain
        let proceed ←
          match e6 with
          | .error _ => do
            logAt .warn "failed to verify ipv6 jump existence before add"
              [table, hook, chain]
            Eff.pure true
          | .ok true => do
            logAt .debug "ipv6 jump rule already present" [table, hook, chain]
            Eff.pure false
          | .ok false => Eff.pure true
        if proceed then do
          logAt .info "adding ipv6 jump rule" [table, hook, chain]
          let r6 ← runCmd E .v6 (.insert table hook 1 (.jump chain))
          match r6 with
          | .ok => Eff.pure ()
          | _ => logAt .warn "failed to add ipv6 jump rule" [table, hook, chain]
        else Eff.pure ()
      else Eff.pure ()
    | _ => throwErr "add ipv4 jump: run failed"

/-- `RemoveJump`: if the IPv4 jump is present, delete it by match
(`-D hook -j chain`); if absent, no-op.  When `ipv6` is set, repeat on
the IPv6 table, tolerating every IPv6 failure. -/
def removeJump {σ : Type} (E : Executor σ) (ctx : Bool)
    (table hook chain : String) (ipv6 : Bool) : Eff σ Unit := do
  checkCtx ctx
  let ex ← tryEff (jumpExists E ctx table hook chain)
  match ex with
  | .error e => throwErr ("determine v4 jump existence: " ++ e)
  | .ok existsV4 => do
    if existsV4 then do
      logAt .info "removing jump rule" [table, hook, chain]
      let r ← runCmd E .v4 (.delete table hook (.jump chain))
      match r with
      | .ok => Eff.pure ()
      | _ => throwErr "remove ipv4 jump: run failed"
    else
      logAt .debug "ipv4 jump absent; continuing to ipv6" [table, hook, chain]
    if ipv6 then do
      let e6 ← jumpExistsWithBinary E .v6 table hook chain
      match e6 with
      | .error _ =>
        logAt .warn "failed to verify ipv6 jump existence before remove"
          [table, hook, chain]
      | .ok false =>
        logAt .debug "ipv6 jump rule absent; nothing to remove"
          [table, hook, chain]
      | .ok true => do
        logAt .info "removing ipv6 jump rule" [table, hook, chain]
        let r6 ← runCmd E .v6 (.delete table hook (.jump chain))
        match r6 with
        | .ok => Eff.pure ()
        | _ => logAt .warn "failed to remove ipv6 jump rule" [table, hook, chain]
    else Eff.pure ()

/-- `ensureIPv6Chain`: probe the IPv6 chain via `ChainExists6`; flush it
when present, create it otherwise; any failure is returned to the
caller. -/
def ensureIPv6Chain {σ : Type} (E : Executor σ) (ctx : Bool)
    (table chain : String) : Eff σ Unit := do
  checkCtx ctx
  let ex ← runChainExists E true table chain
  match ex with
  | .error _ => throwErr "determine ipv6 chain existence: probe failed"
  | .ok exists6 =>
    if exists6 then do
      logAt .info "flushing existing chain" [table, chain, "true"]
      let r ← runCmd E .v6 (.flush table chain)
      match r with
      | .ok => Eff.pure ()
      | _ => throwErr "ipv6 flush failed"
    else do
      logAt .info "creating chain" [table, chain, "true"]
      let r ← runCmd E .v6 (.newChain table chain)
      match r with
      | .ok => Eff.pure ()
      | _ => throwErr "ipv6 create failed"

/-- `EnsureChain`: flush the IPv4 chain when it exists, create it
otherwise (failures fatal); when `ipv6` is set, do the same on the IPv6
table through `ensureIPv6Chain`, and on any IPv6 failure bump the
process-wide counter, log at warn, and still return success. -/
def ensureChain {σ : Type} (E : Executor σ) (ctx : Bool)
    (table chain : String) (ipv6 : Bool) : Eff σ Unit := do
  checkCtx ctx
  let ex ← runChainExists E false table chain
  match ex with
  | .error _ => throwErr "determine chain existence: probe failed"
  | .ok exists4 => do
    if exists4 then do
      logAt .info "flushing existing chain" [table, chain, "false"]
      let r ← runCmd E .v4 (.flush table chain)
      match r with
      | .ok => Eff.pure ()
      | _ => throwErr ("flush chain " ++ chain ++ ": run failed")
    else do
      logAt .info "creating chain" [table, chain, "false"]
      let r ← runCmd E .v4 (.newChain table chain)
      match r with
      | .ok => Eff.pure ()
      | _ => throwErr ("create chain " ++ chain ++ ": run failed")
    if ipv6 then do
      let r6 ← tryEff (ensureIPv6Chain E ctx table chain)
      match r6 with
      | .error _ => do
        incIPv6Failures
        logAt .warn "ip6tables chain preparation failed" [table, chain]
      | .ok _ => Eff.pure ()
    else Eff.pure ()

/-! ## DNAT rules (`rules.go`) -/

/-- `discovery.ServiceMapping`.  The Go port is an `int32` holding a
service port (1–65535 by the data-model invariant); it is a natural
number here. -/
structure ServiceMapping where
  serviceName : String
  port : Nat
  protocol : String
  activeClusterIP : String
  previewClusterIP : String
deriving Repr, DecidableEq

/-- The audit/DNAT argument family classifier seam: `isIPv6` in the Go
source calls `net.ParseIP(ip)` and checks `To4() == nil`; the embedding
keeps the classifier abstract as a function `String → Bool` (false on
the empty string and on IPv4 addresses, true on IPv6 addresses). -/
def dnatRuleOf (m : ServiceMapping) : Rule :=
  .dnat m.activeClusterIP m.protocol.toLower m.port
    (m.previewClusterIP ++ ":" ++ toString m.port)

/-- `AddDNATRules` loop body, with the running `added` count.  Returns
the final process state, the count of rules actually inserted, and the
error, mirroring the Go `(int, error)` pair.  Per mapping: skip on
missing IP/port, skip mixed families, skip IPv6 without dual-stack,
otherwise append the DNAT rule with the matching family's binary;
on a `Run` failure return immediately with the count so far. -/
def addDNATRulesAux {σ : Type} (E : Executor σ) (ctx : Bool)
    (isV6 : String → Bool) (table chain : String) (ipv6 : Bool) :
    List ServiceMapping → Nat → St σ → St σ × Nat × Option String
  | [], added, s => (s, added, none)
  | m :: rest, added, s =>
    if ctx then (s, added, some "context canceled")
    else if m.activeClusterIP = "" || m.previewClusterIP = "" || m.port = 0 then
      let s1 := { s with logs := s.logs ++
        [⟨.warn, "skipping dnat rule due to missing IP/port", [m.serviceName]⟩] }
      addDNATRulesAux E ctx isV6 table chain ipv6 rest added s1
    else
      let isActiveV6 := isV6 m.activeClusterIP
      let isPreviewV6 := isV6 m.previewClusterIP
      if isActiveV6 != isPreviewV6 then
        let s1 := { s with logs := s.logs ++
          [⟨.warn, "skipping dnat rule due to mixed IP families", [m.serviceName]⟩] }
        addDNATRulesAux E ctx isV6 table chain ipv6 rest added s1
      else if isActiveV6 && !ipv6 then
        let s1 := { s with logs := s.logs ++
          [⟨.warn, "skipping ipv6 dnat rule without ipv6 support", [m.serviceName]⟩] }
        addDNATRulesAux E ctx isV6 table chain ipv6 rest added s1
      else
        let fam : Fam := if isActiveV6 then Fam.v6 else Fam.v4
        let s1 : St σ := { s with logs := s.logs ++
          [⟨.info, "adding dnat rule", [m.serviceName]⟩] }
        let p := E.run fam (.append table chain (dnatRuleOf m)) s1.exec
        let s2 : St σ := { s1 with exec := p.1,
                                   trace := s1.trace ++ [(fam, Op.append table chain (dnatRuleOf m))] }
        match p.2 with
        | .ok => addDNATRulesAux E ctx isV6 table chain ipv6 rest (added + 1) s2
        | _ => (s2, added, some ("add dnat rule for " ++ m.serviceName))

/-- `AddDNATRules` (`rules.go`): fold over the mappings starting from
count 0. -/
def addDNATRules {σ : Type} (E : Executor σ) (ctx : Bool)
    (isV6 : String → Bool) (table chain : String)
    (mappings : List ServiceMapping) (ipv6 : Bool) (s : St σ) :
    St σ × Nat × Option String :=
  addDNATRulesAux E ctx isV6 table chain ipv6 mappings 0 s

/-- Which mappings the loop actually appends a rule for (given the
missing-field guard does not fire): both IPs in the same family, and an
IPv6 pair only when dual-stack is enabled. -/
def eligibleMapping (isV6 : String → Bool) (ipv6 : Bool)
    (m : ServiceMapping) : Bool :=
  (isV6 m.activeClusterIP == isV6 m.previewClusterIP) &&
    (!(isV6 m.activeClusterIP) || ipv6)

/-- The family whose binary serves a mapping's rule. -/
def famOf (isV6 : String → Bool) (m : ServiceMapping) : Fam :=
  if isV6 m.activeClusterIP then .v6 else .v4

/-! ## The watcher's jump manager (`watcher.go`, `jumpManager.OnTransition`) -/

/-- The `jumpManager` fields that drive `OnTransition` (executor and
metrics live in the threaded state). -/
structure JumpManagerCfg where
  table : String
  hook : String
  chain : String
  ipv6 : Bool
  activeValue : String
  previewValue : String
deriving Repr, DecidableEq

/-- `jumpManager.OnTransition`: on `current == previewValue` add the
jump and set the gauge to 1; on `current == activeValue` remove the jump
and set the gauge to 0; on failure of either jump operation increment
the `iptables` error counter and return the error without touching the
gauge; ignore any other value at debug.  (`previous` is only logged.) -/
def onTransition {σ : Type} (E : Executor σ) (ctx : Bool)
    (jm : JumpManagerCfg) (previous current : String) : Eff σ Unit := do
  if current == jm.previewValue then do
    logAt .info "activating dnat jump" [previous, current]
    let r ← tryEff (addJump E ctx jm.table jm.hook jm.chain jm.ipv6)
    match r with
    | .error e => do
      incrementErrorE "iptables"
      throwErr ("add jump: " ++ e)
    | .ok _ => setJumpActiveE true
  else if current == jm.activeValue then do
    logAt .info "deactivating dnat jump" [previous, current]
    let r ← tryEff (removeJump E ctx jm.table jm.hook jm.chain jm.ipv6)
    match r with
    | .error e => do
      incrementErrorE "iptables"
      throwErr ("remove jump: " ++ e)
    | .ok _ => setJumpActiveE false
  else
    logAt .debug "ignoring transition" [previous, current]

/-! ## A faithful executor: kernel-table semantics

For claims about the effect of the controller on the kernel tables, the
executor is instantiated with a model of the documented `iptables`
behaviour: per family, a map from `(table, chain)` to an ordered rule
list; `-C` reports presence of a matching rule (exit status 1 when
absent), `-I pos` inserts at the 1-based position, `-D` deletes the
first matching rule, `-A` appends, `-F` empties the chain, `-N` creates
an empty chain (error when it already exists).  Built-in hook chains are
treated as present (a missing key reads as an empty rule list). -/

/-- One family's tables: association list `(table, chain) → rules`. -/
def TableState : Type := List ((String × String) × List Rule)

/-- Look up a chain's rule list. -/
def lookupChain (ts : TableState) (k : String × String) : Option (List Rule) :=
  match ts with
  | [] => none
  | (k1, rs) :: rest => if k1 = k then some rs else lookupChain rest k

/-- Read a chain's rules, empty when the key is absent. -/
def chainRules (ts : TableState) (k : String × String) : List Rule :=
  (lookupChain ts k).getD []

/-- Write a chain's rule list (update in place or append the key). -/
def setChain (ts : TableState) (k : String × String) (rs : List Rule) :
    TableState :=
  match ts with
  | [] => [(k, rs)]
  | (k1, rs1) :: rest =>
    if k1 = k then (k1, rs) :: rest else (k1, rs1) :: setChain rest k rs

/-- 1-based insertion, `iptables -I chain pos rule`. -/
def insertAtPos (rs : List Rule) (pos : Nat) (r : Rule) : List Rule :=
  rs.take (pos - 1) ++ r :: rs.drop (pos - 1)

/-- Interpret one command on one family's tables. -/
def tableRun (ts : TableState) : Op → TableState × RunResult
  | .check t c r =>
    if r ∈ chainRules ts (t, c) then (ts, .ok) else (ts, .exit 1)
  | .insert t c pos r =>
    (setChain ts (t, c) (insertAtPos (chainRules ts (t, c)) pos r), .ok)
  | .delete t c r =>
    if r ∈ chainRules ts (t, c) then
      (setChain ts (t, c) ((chainRules ts (t, c)).erase r), .ok)
    else (ts, .exit 1)
  | .append t c r => (setChain ts (t, c) (chainRules ts (t, c) ++ [r]), .ok)
  | .flush t c => (setChain ts (t, c) [], .ok)
  | .newChain t c =>
    if (lookupChain ts (t, c)).isSome then (ts, .exit 1)
    else (setChain ts (t, c) [], .ok)

/-- Both families' tables. -/
structure DualState where
  v4 : TableState
  v6 : TableState

/-- The faithful executor over `DualState`. -/
def modelExec : Executor DualState where
  run fam op st :=
    match fam with
    | .v4 =>
      let p := tableRun st.v4 op
      ({ st with v4 := p.1 }, p.2)
    | .v6 =>
      let p := tableRun st.v6 op
      ({ st with v6 := p.1 }, p.2)
  chainExists t c st := (st, .ok (lookupChain st.v4 (t, c)).isSome)
  chainExists6 t c st := (st, .ok (lookupChain st.v6 (t, c)).isSome)

/-- A scripted executor: `Run` consumes a list of canned results in
order (success once the script is exhausted); the chain probes report
absence.  This mirrors the recording test doubles and lets theorems
quantify over executor failure patterns. -/
def scriptExec : Executor (List RunResult) where
  run _ _ s :=
    match s with
    | [] => ([], .ok)
    | r :: rest => (rest, r)
  chainExists _ _ s := (s, .ok false)
  chainExists6 _ _ s := (s, .ok false)

/-- An executor whose commands always succeed (chains report present);
used to instantiate theorems that assume no executor failure. -/
def okExec : Executor Unit where
  run _ _ s := (s, .ok)
  chainExists _ _ s := (s, .ok true)
  chainExists6 _ _ s := (s, .ok true)

/-! ## The audit file: writer model and line counter
(`internal/metrics/dnatmap.go`; writer format pinned by
`TestWriteDNATMap`) -/

/-- Go's `unicode.IsSpace` on the Latin-1 range (the characters
`strings.TrimSpace` strips). -/
def goIsSpace (c : Char) : Bool :=
  c = ' ' || c = '\t' || c = '\n' || c = Char.ofNat 11 || c = Char.ofNat 12 ||
    c = '\r' || c = Char.ofNat 133 || c = Char.ofNat 160

/-- `strings.TrimSpace` on a character list. -/
def goTrimList (cs : List Char) : List Char :=
  ((cs.dropWhile goIsSpace).reverse.dropWhile goIsSpace).reverse

/-- `strings.TrimSpace`. -/
def goTrimSpace (s : String) : String :=
  String.mk (goTrimList s.data)

/-- `path/filepath.Clean` segment processing: drop empty and `.`
segments; `..` pops a non-`..` segment, is dropped at the root, and is
kept at the head of a relative path.  The first argument is the
accumulated stack in reverse order. -/
def cleanStack (rooted : Bool) : List String → List String → List String
  | stack, [] => stack.reverse
  | stack, seg :: rest =>
    if seg = "" || seg = "." then cleanStack rooted stack rest
    else if seg = ".." then
      match stack with
      | top :: stackRest =>
        if top = ".." then cleanStack rooted (".." :: top :: stackRest) rest
        else cleanStack rooted stackRest rest
      | [] =>
        if rooted then cleanStack rooted [] rest
        else cleanStack rooted [".."] rest
    else cleanStack rooted (seg :: stack) rest

/-- `strings.Split` on the path separator, over the character list (the
standard-library splitter is not used so that every definition stays
kernel-computable).  First argument: current segment in reverse. -/
def splitOnSlashAux : List Char → List Char → List String
  | acc, [] => [String.mk acc.reverse]
  | acc, c :: rest =>
    if c = '/' then String.mk acc.reverse :: splitOnSlashAux [] rest
    else splitOnSlashAux (c :: acc) rest

/-- `strings.Split(s, "/")`. -/
def splitOnSlash (s : String) : List String :=
  splitOnSlashAux [] s.data

/-- Whether the path is absolute (starts with the separator). -/
def isRooted (s : String) : Bool :=
  match s.data with
  | c :: _ => c = '/'
  | [] => false

/-- Join components with the path separator. -/
def joinSlash : List String → String
  | [] => ""
  | [x] => x
  | x :: rest => x ++ "/" ++ joinSlash rest

/-- `strings.HasPrefix`. -/
def goHasPrefix (s pre : String) : Bool :=
  pre.data.isPrefixOf s.data

/-- `path/filepath.Clean` (Unix separator). -/
def filepathClean (p : String) : String :=
  if p = "" then "."
  else
    let rooted := isRooted p
    let comps := cleanStack rooted [] (splitOnSlash p)
    let body := joinSlash comps
    if rooted then "/" ++ body
    else if body = "" then "." else body

/-- `validateDNATMapPath`: reject a cleaned path any of whose
`/`-separated components is `..`. -/
def validateDNATMapPath (path : String) : Option String :=
  if (splitOnSlash (filepathClean path)).any (fun seg => seg = "..") then
    some ("dnat map path " ++ path ++ " contains unsupported traversal component")
  else none

/-- `dropCR` of `bufio.ScanLines` on a reversed token: strip one
terminal carriage return. -/
def dropLeadCR (cs : List Char) : List Char :=
  match cs with
  | c :: rest => if c = '\r' then rest else cs
  | [] => []

/-- `bufio.Scanner` with `ScanLines`, a token at a time: split on `\n`,
drop one trailing `\r` per token, no final empty token.  First argument
is the current token's characters in reverse. -/
def scanLinesAux : List Char → List Char → List String
  | racc, [] => if racc.isEmpty then [] else [String.mk (dropLeadCR racc).reverse]
  | racc, c :: rest =>
    if c = '\n' then String.mk (dropLeadCR racc).reverse :: scanLinesAux [] rest
    else scanLinesAux (c :: racc) rest

/-- The lines `bufio.Scanner`/`ScanLines` delivers for a file content. -/
def scanLines (content : String) : List String :=
  scanLinesAux [] content.data

/-- The counting loop of `CountDNATMappings`: skip blank lines and lines
starting with `#` after trimming. -/
def countLoop (lines : List String) : Nat :=
  lines.foldl
    (fun count line =>
      let t := goTrimSpace line
      if t = "" || goHasPrefix t "#" then count else count + 1)
    0

/-- What opening a path can yield: absence (`fs.ErrNotExist`), any other
open failure, or the content (with a flag for a scanner failure that
surfaces after the read loop). -/
inductive FileOutcome where
  | notExist
  | openFail
  | file (content : String) (scanFail : Bool)

/-- A filesystem model: what each path holds. -/
def FileSys : Type := String → FileOutcome

/-- `CountDNATMappings`: trim the path (empty → 0 with no error),
validate traversal, open (absence → 0 with no error, other failure →
error), count non-blank non-comment lines, then surface a scanner
error.  Returns Go's `(int, error)` pair; every error site returns 0. -/
def countDNATMappings (fs : FileSys) (path : String) : Nat × Option String :=
  let cleanPath := goTrimSpace path
  if cleanPath = "" then (0, none)
  else
    match validateDNATMapPath cleanPath with
    | some e => (0, some e)
    | none =>
      match fs cleanPath with
      | .notExist => (0, none)
      | .openFail => (0, some ("open dnat map " ++ cleanPath))
      | .file content scanFail =>
        let count := countLoop (scanLines content)
        if scanFail then (0, some ("scan dnat map " ++ cleanPath))
        else (count, none)

/-- One audit record line (without the trailing newline):
`<name>:<port>/<PROTO> <active_ip> -> <preview_ip>`. -/
def recordLine (m : ServiceMapping) : String :=
  m.serviceName ++ ":" ++ toString m.port ++ "/" ++ m.protocol ++ " " ++
    m.activeClusterIP ++ " -> " ++ m.previewClusterIP

/-- The record section of the audit file: one record line per mapping,
each followed by a newline. -/
def auditRecords : List ServiceMapping → String
  | [] => ""
  | m :: rest => recordLine m ++ "\n" ++ auditRecords rest

/-- The two-line audit header, exactly as `TestWriteDNATMap` pins it. -/
def auditHeader : String :=
  "# DNAT mappings generated by ghostwire-init\n" ++
    "# Format: service:port/protocol active_ip -> preview_ip\n"

/-- Modelled from the spec: `WriteDNATMap`, whose implementation is not
among the sources (only its callers and its test are).  Per the spec it
writes "a two-line header comment then one line per mapping in the
exact format `<name>:<port>/<PROTO> <active_ip> -> <preview_ip>`", with
a trailing newline after each record; the exact bytes are pinned by
`TestWriteDNATMap`.  This is the content written (path validation and
file-mode handling are not modelled). -/
def writeDNATMap (mappings : List ServiceMapping) : String :=
  auditHeader ++ auditRecords mappings

/-! ## Proof-infrastructure predicates -/

/-- A computation that never writes the process-wide IPv6 failure
counter nor the metrics bundle (true of the whole `internal/iptables`
jump layer, which has no access to either). -/
def PreservesCM {σ α : Type} (x : Eff σ α) : Prop :=
  ∀ s : St σ, ((x s).1).ipv6ChainFailures = s.ipv6ChainFailures ∧
    ((x s).1).metrics = s.metrics

/-- Forget the log records of a process state. -/
def stripLogs {σ : Type} (s : St σ) : St σ := { s with logs := [] }

/-- Two computations agree on everything except the log records: from
inputs equal up to logs they produce outputs equal up to logs and equal
results.  Used for the noninterference claim about `OnTransition`'s
`previous` argument, which flows only into log attributes. -/
def AgreesExceptLogs {σ α : Type} (x y : Eff σ α) : Prop :=
  ∀ s t : St σ, stripLogs s = stripLogs t →
    stripLogs ((x s).1) = stripLogs ((y t).1) ∧ (x s).2 = (y t).2

/-! # Theorems -/

/-! ## C1 — poller transition totality -/

/-- C1.  For any state reachable over a sequence of successful label
reads, one `pollOnce` step invokes the handler at most once (it returns
at most one invocation), and exactly as the spec demands: (A) recognized
first observation → handler gets `previous = ""`; (B) unrecognized first
observation → record only; (C) unchanged value → no action; (D) change
with both prior and new value recognized → handler gets
`previous = s.lastRole`; (E) any other change → the value is recorded
but the handler is not invoked. -/
theorem pollOnce_transition_totality (cfg : PollerCfg) (s : PollerState)
    (v : String) (hh : cfg.handlerPresent = true) :
    (s.observedRole = false → isRecognizedRole cfg v = true →
      pollOnce cfg s v = (⟨v, true⟩, some ("", v))) ∧
    (s.observedRole = false → isRecognizedRole cfg v = false →
      pollOnce cfg s v = (⟨v, true⟩, none)) ∧
    (s.observedRole = true → s.lastRole = v →
      pollOnce cfg s v = (s, none)) ∧
    (s.observedRole = true → s.lastRole ≠ v →
      isRecognizedRole cfg s.lastRole = true → isRecognizedRole cfg v = true →
      pollOnce cfg s v = (⟨v, true⟩, some (s.lastRole, v))) ∧
    (s.observedRole = true → s.lastRole ≠ v →
      ¬(isRecognizedRole cfg s.lastRole = true ∧ isRecognizedRole cfg v = true) →
      pollOnce cfg s v = (⟨v, true⟩, none)) := by
  refine ⟨?_, ?_, ?_, ?_, ?_⟩ <;> intro h1 h2
  · simp [pollOnce, h1, h2, hh]
  · simp [pollOnce, h1, h2]
  · simp [pollOnce, h1, h2]
  · intro h3 h4
    have hne : (s.lastRole == v) = false := by
      simp [h2]
    simp [pollOnce, h1, hne, h2, h3, h4, hh]
  · intro h3
    have hne : (s.lastRole == v) = false := by
      simp [h2]
    rcases Bool.eq_false_or_eq_true (isRecognizedRole cfg s.lastRole) with hp | hp
    · rcases Bool.eq_false_or_eq_true (isRecognizedRole cfg v) with hc | hc
      · exact absurd ⟨hp, hc⟩ h3
      · simp [pollOnce, h1, hne, hp, hc]
    · simp [pollOnce, h1, hne, hp]

/-- Witness for C1 at a concrete input: first observation of a
recognized role invokes the handler with empty previous. -/
theorem pollOnce_transition_totality_witness :
    pollOnce ⟨"active", "preview", true⟩ initialPollerState "active" =
      (⟨"active", true⟩, some ("", "active")) :=
  (pollOnce_transition_totality ⟨"active", "preview", true⟩
    initialPollerState "active" rfl).1 rfl (by decide)

/-! ## C7 — health monotonicity -/

/-- C7.  The only operations that write the readiness flags set them to
`true`, so once `/healthz` answers `200 "OK\n"`, it keeps answering
`200 "OK\n"` after any further sequence of flag writes — it never
answers `503 "Service Unavailable\n"` again in the same process. -/
theorem healthz_monotonic (s : HealthState) (ops : List HealthOp)
    (h : healthzResponse s = (200, "OK\n")) :
    healthzResponse (healthSteps s ops) = (200, "OK\n") ∧
      healthzResponse (healthSteps s ops) ≠ (503, "Service Unavailable\n") := by
  have key : ∀ t : HealthState, t.chainVerified = true → t.labelsRead = true →
      ∀ l : List HealthOp, healthzResponse (healthSteps t l) = (200, "OK\n") := by
    intro t ht1 ht2 l
    induction l generalizing t with
    | nil => simp [healthSteps, healthzResponse, ht1, ht2]
    | cons op rest ih =>
      have : healthSteps t (op :: rest) = healthSteps (healthStep t op) rest := rfl
      rw [this]
      apply ih
      · cases op <;> simp [healthStep, ht1]
      · cases op <;> simp [healthStep, ht2]
  have hcv : s.chainVerified = true ∧ s.labelsRead = true := by
    by_contra hcon
    have hfalse : (s.chainVerified && s.labelsRead) = false := by
      rcases Bool.eq_false_or_eq_true s.chainVerified with h1 | h1
      · rcases Bool.eq_false_or_eq_true s.labelsRead with h2 | h2
        · exact absurd ⟨h1, h2⟩ hcon
        · simp [h2]
      · simp [h1]
    rw [healthzResponse, hfalse] at h
    simp at h
  have hmain := key s hcv.1 hcv.2 ops
  exact ⟨hmain, by rw [hmain]; intro hbad; simp at hbad⟩

/-- Witness for C7 at a concrete input. -/
theorem healthz_monotonic_witness :
    healthzResponse (healthSteps ⟨true, true⟩ [.setLabelsRead]) = (200, "OK\n") :=
  (healthz_monotonic ⟨true, true⟩ [.setLabelsRead] (by decide)).1

/-! ## Monad evaluation lemmas -/

/-- Do-notation `>>=` on `Eff` is `Eff.bind`. -/
theorem effBindDef {σ α β : Type} (x : Eff σ α) (f : α → Eff σ β) :
    x >>= f = Eff.bind x f := rfl

/-- Do-notation `pure` on `Eff` is `Eff.pure`. -/
theorem effPureDef {σ α : Type} (a : α) :
    (pure a : Eff σ α) = Eff.pure a := rfl

/-! ## Table-model lemmas -/

/-- Reading back the chain just written. -/
theorem lookupChain_setChain_self (ts : TableState) (k : String × String)
    (rs : List Rule) : lookupChain (setChain ts k rs) k = some rs := by
  induction ts with
  | nil => simp [setChain, lookupChain]
  | cons hd tl ih =>
    obtain ⟨k1, rs1⟩ := hd
    by_cases hk : k1 = k
    · simp [setChain, hk, lookupChain]
    · simp [setChain, hk, lookupChain, ih]

/-- `chainRules` after `setChain` on the same key. -/
theorem chainRules_setChain_self (ts : TableState) (k : String × String)
    (rs : List Rule) : chainRules (setChain ts k rs) k = rs := by
  simp [chainRules, lookupChain_setChain_self]

/-! ## C3 — add_jump idempotence and positioning -/

/-- Evaluation of `addJump` on the faithful executor when the jump is
already present in the hook chain: only the `-C` probe runs, the tables
are untouched, and the call succeeds. -/
theorem addJump_model_present (s : St DualState) (t hook chain : String)
    (hp : Rule.jump chain ∈ chainRules s.exec.v4 (t, hook)) :
    addJump modelExec false t hook chain false s =
      ({ s with
          trace := s.trace ++ [(.v4, .check t hook (.jump chain))],
          logs := s.logs ++
            [⟨.debug, "jump rule already present", [t, hook, chain]⟩] },
        .ok ()) := by
  simp [addJump, jumpExists, jumpExistsWithBinary, checkCtx, tryEff, runCmd,
    logAt, throwErr, modelExec, tableRun, hp, effBindDef, effPureDef,
    Eff.bind, Eff.pure]

/-- Evaluation of `addJump` on the faithful executor when the jump is
absent: the probe reports absence (exit 1) and the jump is inserted at
position 1 of the hook chain. -/
theorem addJump_model_absent (s : St DualState) (t hook chain : String)
    (hp : Rule.jump chain ∉ chainRules s.exec.v4 (t, hook)) :
    addJump modelExec false t hook chain false s =
      ({ s with
          exec := { s.exec with v4 := (setChain s.exec.v4 (t, hook)
            (Rule.jump chain :: chainRules s.exec.v4 (t, hook))) },
          trace := s.trace ++ [(.v4, .check t hook (.jump chain)),
            (.v4, .insert t hook 1 (.jump chain))],
          logs := s.logs ++ [⟨.info, "adding jump rule", [t, hook, chain]⟩] },
        .ok ()) := by
  simp [addJump, jumpExists, jumpExistsWithBinary, checkCtx, tryEff, runCmd,
    logAt, throwErr, modelExec, tableRun, hp, effBindDef, effPureDef,
    Eff.bind, Eff.pure, insertAtPos]

/-- C3.  On the faithful kernel-table model, starting from any
hook-chain state: when the jump is absent, `AddJump` prepends it to the
hook chain (position 1, so it is the first rule afterwards) and
succeeds; when the jump is present, `AddJump` issues only the probe and
performs no insertion (tables unchanged); consequently, from any state
holding at most one copy of the jump, `AddJump` followed by `AddJump`
leaves exactly one jump rule in the hook chain. -/
theorem addJump_idempotent_positioning (s : St DualState)
    (t hook chain : String) :
    (Rule.jump chain ∉ chainRules s.exec.v4 (t, hook) →
      chainRules (addJump modelExec false t hook chain false s).1.exec.v4
          (t, hook) =
        Rule.jump chain :: chainRules s.exec.v4 (t, hook) ∧
      (addJump modelExec false t hook chain false s).2 = .ok ()) ∧
    (Rule.jump chain ∈ chainRules s.exec.v4 (t, hook) →
      (addJump modelExec false t hook chain false s).1.exec = s.exec ∧
      (addJump modelExec false t hook chain false s).1.trace =
        s.trace ++ [(.v4, .check t hook (.jump chain))] ∧
      (addJump modelExec false t hook chain false s).2 = .ok ()) ∧
    ((chainRules s.exec.v4 (t, hook)).count (Rule.jump chain) ≤ 1 →
      (chainRules (addJump modelExec false t hook chain false
          (addJump modelExec false t hook chain false s).1).1.exec.v4
          (t, hook)).count (Rule.jump chain) = 1) := by
  refine ⟨?_, ?_, ?_⟩
  · intro hp
    rw [addJump_model_absent s t hook chain hp]
    simp [chainRules_setChain_self]
  · intro hp
    rw [addJump_model_present s t hook chain hp]
    simp
  · intro hcount
    by_cases hp : Rule.jump chain ∈ chainRules s.exec.v4 (t, hook)
    · have hpos : 1 ≤ (chainRules s.exec.v4 (t, hook)).count (Rule.jump chain) :=
        List.one_le_count_iff.mpr hp
      simp only [addJump_model_present _ t hook chain hp]
      simp [addJump_model_present, hp]
      omega
    · have hzero : (chainRules s.exec.v4 (t, hook)).count (Rule.jump chain) = 0 :=
        List.count_eq_zero.mpr hp
      simp [addJump_model_absent, addJump_model_present, hp,
        chainRules_setChain_self, hzero]

/-- Witness for C3: from an OUTPUT chain holding one foreign rule and no
jump, two `AddJump` calls leave exactly one jump rule, at the head. -/
theorem addJump_idempotent_positioning_witness :
    (chainRules (addJump modelExec false "nat" "OUTPUT" "CANARY_DNAT" false
        (addJump modelExec false "nat" "OUTPUT" "CANARY_DNAT" false
          (mkSt ⟨[(("nat", "OUTPUT"), [Rule.other 7])], []⟩)).1).1.exec.v4
        ("nat", "OUTPUT")).count (Rule.jump "CANARY_DNAT") = 1 :=
  (addJump_idempotent_positioning
      (mkSt ⟨[(("nat", "OUTPUT"), [Rule.other 7])], []⟩)
      "nat" "OUTPUT" "CANARY_DNAT").2.2 (by decide)

/-! ## Preservation of counter and metrics by the jump layer -/

/-- `AddJump` touches neither the counter nor the metrics. -/
theorem preservesCM_addJump {σ : Type} (E : Executor σ) (ctx : Bool)
    (t h c : String) (v6 : Bool) : PreservesCM (addJump E ctx t h c v6) := by
  intro s
  cases ctx with
  | true => simp [addJump, checkCtx, throwErr, effBindDef, Eff.bind]
  | false =>
    simp only [addJump, jumpExists, jumpExistsWithBinary, checkCtx,
      Bool.false_eq_true, if_false, Eff.bind, Eff.pure, tryEff, runCmd, logAt, throwErr, effBindDef, effPureDef]
    rcases hE1 : E.run Fam.v4 (Op.check t h (Rule.jump c)) s.exec with ⟨e1, r1⟩
    simp only [hE1]
    rcases r1 with _ | n1 | _
    · simp [Eff.bind, Eff.pure, tryEff, runCmd, logAt, throwErr, effBindDef, effPureDef]
    · rcases n1 with _ | n1
      · simp [Eff.bind, Eff.pure, tryEff, runCmd, logAt, throwErr, effBindDef, effPureDef]
      · rcases n1 with _ | n1
        · try simp [Eff.bind, Eff.pure, tryEff, runCmd, logAt, throwErr, effBindDef, effPureDef]
          rcases hE2 : E.run Fam.v4 (Op.insert t h 1 (Rule.jump c)) e1 with ⟨e2, r2⟩
          simp only [hE2]
          rcases r2 with _ | n2 | _
          · cases v6 with
            | false => simp [Eff.bind, Eff.pure, tryEff, runCmd, logAt, throwErr, effBindDef, effPureDef]
            | true =>
              simp only [if_true, Eff.bind, Eff.pure, tryEff, runCmd, logAt, throwErr, effBindDef, effPureDef]
              rcases hE3 : E.run Fam.v6 (Op.check t h (Rule.jump c)) e2 with ⟨e3, r3⟩
              simp only [hE3]
              rcases r3 with _ | n3 | _
              · simp [Eff.bind, Eff.pure, tryEff, runCmd, logAt, throwErr, effBindDef, effPureDef]
              · rcases n3 with _ | n3
                · -- exit 0: probe error, warn, still insert
                  try simp [Eff.bind, Eff.pure, tryEff, runCmd, logAt, throwErr, effBindDef, effPureDef]
                  rcases hE4 : E.run Fam.v6 (Op.insert t h 1 (Rule.jump c)) e3 with ⟨e4, r4⟩
                  try simp only [hE4]
                  rcases r4 with _ | n4 | _ <;> simp [Eff.bind, Eff.pure, tryEff, runCmd, logAt, throwErr, effBindDef, effPureDef]
                · rcases n3 with _ | n3
                  · -- exit 1: absent, insert
                    try simp [Eff.bind, Eff.pure, tryEff, runCmd, logAt, throwErr, effBindDef, effPureDef]
                    rcases hE4 : E.run Fam.v6 (Op.insert t h 1 (Rule.jump c)) e3 with ⟨e4, r4⟩
                    try simp only [hE4]
                    rcases r4 with _ | n4 | _ <;> simp [Eff.bind, Eff.pure, tryEff, runCmd, logAt, throwErr, effBindDef, effPureDef]
                  · -- exit ≥ 2: probe error, warn, still insert
                    try simp [Eff.bind, Eff.pure, tryEff, runCmd, logAt, throwErr, effBindDef, effPureDef]
                    rcases hE4 : E.run Fam.v6 (Op.insert t h 1 (Rule.jump c)) e3 with ⟨e4, r4⟩
                    try simp only [hE4]
                    rcases r4 with _ | n4 | _ <;> simp [Eff.bind, Eff.pure, tryEff, runCmd, logAt, throwErr, effBindDef, effPureDef]
              · -- fail: probe error, warn, still insert
                try simp [Eff.bind, Eff.pure, tryEff, runCmd, logAt, throwErr, effBindDef, effPureDef]
                rcases hE4 : E.run Fam.v6 (Op.insert t h 1 (Rule.jump c)) e3 with ⟨e4, r4⟩
                try simp only [hE4]
                rcases r4 with _ | n4 | _ <;> simp [Eff.bind, Eff.pure, tryEff, runCmd, logAt, throwErr, effBindDef, effPureDef]
          · simp [Eff.bind, Eff.pure, tryEff, runCmd, logAt, throwErr, effBindDef, effPureDef]
          · simp [Eff.bind, Eff.pure, tryEff, runCmd, logAt, throwErr, effBindDef, effPureDef]
        · simp [Eff.bind, Eff.pure, tryEff, runCmd, logAt, throwErr, effBindDef, effPureDef]
    · simp [Eff.bind, Eff.pure, tryEff, runCmd, logAt, throwErr, effBindDef, effPureDef]

/-- `RemoveJump` touches neither the counter nor the metrics. -/
theorem preservesCM_removeJump {σ : Type} (E : Executor σ) (ctx : Bool)
    (t h c : String) (v6 : Bool) : PreservesCM (removeJump E ctx t h c v6) := by
  intro s
  cases ctx with
  | true => simp [removeJump, checkCtx, throwErr, effBindDef, Eff.bind]
  | false =>
    simp only [removeJump, jumpExists, jumpExistsWithBinary, checkCtx,
      Bool.false_eq_true, if_false, Eff.bind, Eff.pure, tryEff, runCmd, runChainExists, logAt, throwErr, effBindDef, effPureDef]
    rcases hE1 : E.run Fam.v4 (Op.check t h (Rule.jump c)) s.exec with ⟨e1, r1⟩
    try simp only [hE1]
    rcases r1 with _ | n1 | _
    · -- present: delete, then maybe ipv6
      try simp_all [Eff.bind, Eff.pure, tryEff, runCmd, runChainExists, logAt, throwErr, effBindDef, effPureDef]
      rcases hE2 : E.run Fam.v4 (Op.delete t h (Rule.jump c)) e1 with ⟨e2, r2⟩
      try simp only [hE2]
      rcases r2 with _ | n2 | _
      · cases v6 with
        | false => simp_all [Eff.bind, Eff.pure, tryEff, runCmd, runChainExists, logAt, throwErr, effBindDef, effPureDef]
        | true =>
          simp only [if_true, Eff.bind, Eff.pure, tryEff, runCmd, runChainExists, logAt, throwErr, effBindDef, effPureDef]
          rcases hE3 : E.run Fam.v6 (Op.check t h (Rule.jump c)) e2 with ⟨e3, r3⟩
          try simp only [hE3]
          rcases r3 with _ | n3 | _
          · try simp_all [Eff.bind, Eff.pure, tryEff, runCmd, runChainExists, logAt, throwErr, effBindDef, effPureDef]
            rcases hE4 : E.run Fam.v6 (Op.delete t h (Rule.jump c)) e3 with ⟨e4, r4⟩
            try simp only [hE4]
            rcases r4 with _ | n4 | _ <;> simp_all [Eff.bind, Eff.pure, tryEff, runCmd, runChainExists, logAt, throwErr, effBindDef, effPureDef]
          · rcases n3 with _ | n3
            · simp_all [Eff.bind, Eff.pure, tryEff, runCmd, runChainExists, logAt, throwErr, effBindDef, effPureDef]
            · rcases n3 with _ | n3 <;> simp_all [Eff.bind, Eff.pure, tryEff, runCmd, runChainExists, logAt, throwErr, effBindDef, effPureDef]
          · simp_all [Eff.bind, Eff.pure, tryEff, runCmd, runChainExists, logAt, throwErr, effBindDef, effPureDef]
      · simp_all [Eff.bind, Eff.pure, tryEff, runCmd, runChainExists, logAt, throwErr, effBindDef, effPureDef]
      · simp_all [Eff.bind, Eff.pure, tryEff, runCmd, runChainExists, logAt, throwErr, effBindDef, effPureDef]
    · rcases n1 with _ | n1
      · simp_all [Eff.bind, Eff.pure, tryEff, runCmd, runChainExists, logAt, throwErr, effBindDef, effPureDef]
      · rcases n1 with _ | n1
        · -- absent: debug, then maybe ipv6
          cases v6 with
          | false => simp_all [Eff.bind, Eff.pure, tryEff, runCmd, runChainExists, logAt, throwErr, effBindDef, effPureDef]
          | true =>
            simp only [if_true, Eff.bind, Eff.pure, tryEff, runCmd, runChainExists, logAt, throwErr, effBindDef, effPureDef]
            rcases hE3 : E.run Fam.v6 (Op.check t h (Rule.jump c)) e1 with ⟨e3, r3⟩
            try simp only [hE3]
            rcases r3 with _ | n3 | _
            · try simp_all [Eff.bind, Eff.pure, tryEff, runCmd, runChainExists, logAt, throwErr, effBindDef, effPureDef]
              rcases hE4 : E.run Fam.v6 (Op.delete t h (Rule.jump c)) e3 with ⟨e4, r4⟩
              try simp only [hE4]
              rcases r4 with _ | n4 | _ <;> simp_all [Eff.bind, Eff.pure, tryEff, runCmd, runChainExists, logAt, throwErr, effBindDef, effPureDef]
            · rcases n3 with _ | n3
              · simp_all [Eff.bind, Eff.pure, tryEff, runCmd, runChainExists, logAt, throwErr, effBindDef, effPureDef]
              · rcases n3 with _ | n3 <;> simp_all [Eff.bind, Eff.pure, tryEff, runCmd, runChainExists, logAt, throwErr, effBindDef, effPureDef]
            · simp_all [Eff.bind, Eff.pure, tryEff, runCmd, runChainExists, logAt, throwErr, effBindDef, effPureDef]
        · simp_all [Eff.bind, Eff.pure, tryEff, runCmd, runChainExists, logAt, throwErr, effBindDef, effPureDef]
    · simp_all [Eff.bind, Eff.pure, tryEff, runCmd, runChainExists, logAt, throwErr, effBindDef, effPureDef]

/-- `ensureIPv6Chain` touches neither the counter nor the metrics. -/
theorem preservesCM_ensureIPv6Chain {σ : Type} (E : Executor σ) (ctx : Bool)
    (t c : String) : PreservesCM (ensureIPv6Chain E ctx t c) := by
  intro s
  cases ctx with
  | true => simp [ensureIPv6Chain, checkCtx, throwErr, effBindDef, Eff.bind]
  | false =>
    simp only [ensureIPv6Chain, checkCtx, Bool.false_eq_true, if_false, Eff.bind, Eff.pure, tryEff, runCmd, runChainExists, logAt, throwErr, effBindDef, effPureDef]
    rcases hC : E.chainExists6 t c s.exec with ⟨e1, r⟩
    try simp only [hC]
    rcases r with e | b
    · simp_all [Eff.bind, Eff.pure, tryEff, runCmd, runChainExists, logAt, throwErr, effBindDef, effPureDef]
    · cases b with
      | true =>
        try simp_all [Eff.bind, Eff.pure, tryEff, runCmd, runChainExists, logAt, throwErr, effBindDef, effPureDef]
        rcases hE2 : E.run Fam.v6 (Op.flush t c) e1 with ⟨e2, r2⟩
        try simp only [hE2]
        rcases r2 with _ | n2 | _ <;> simp_all [Eff.bind, Eff.pure, tryEff, runCmd, runChainExists, logAt, throwErr, effBindDef, effPureDef]
      | false =>
        try simp_all [Eff.bind, Eff.pure, tryEff, runCmd, runChainExists, logAt, throwErr, effBindDef, effPureDef]
        rcases hE2 : E.run Fam.v6 (Op.newChain t c) e1 with ⟨e2, r2⟩
        try simp only [hE2]
        rcases r2 with _ | n2 | _ <;> simp_all [Eff.bind, Eff.pure, tryEff, runCmd, runChainExists, logAt, throwErr, effBindDef, effPureDef]


/-! ## C6 — EnsureChain and IPv6 tolerance -/

/-- Evaluation of `ensureIPv6Chain` when the IPv6 probe answers and the
follow-up command succeeds: flush when the chain exists, create it
otherwise. -/
theorem ensureIPv6Chain_eval {σ : Type} (E : Executor σ) (t c : String)
    (s : St σ) (b6 : Bool) (f1 f2 : σ)
    (hprobe6 : E.chainExists6 t c s.exec = (f1, Except.ok b6))
    (hrun6 : E.run .v6 (if b6 then Op.flush t c else Op.newChain t c) f1 =
      (f2, RunResult.ok)) :
    ensureIPv6Chain E false t c s =
      ({ s with
          exec := f2,
          trace := s.trace ++
            [(Fam.v6, if b6 then Op.flush t c else Op.newChain t c)],
          logs := s.logs ++ [⟨.info,
            if b6 then "flushing existing chain" else "creating chain",
            [t, c, "true"]⟩] }, Except.ok ()) := by
  cases b6 <;>
    simp_all [ensureIPv6Chain, checkCtx, runChainExists, runCmd, logAt,
      throwErr, effBindDef, effPureDef, Eff.bind, Eff.pure]

/-- C6.  With the IPv4 probe answering `b` and the matching IPv4 command
succeeding: `EnsureChain` flushes the chain when it exists and creates
it otherwise; with dual-stack off that is all it does and it succeeds.
With dual-stack on it repeats the flush-or-create on the IPv6 table
(conjunct three, under the matching IPv6 hypotheses), and any IPv6
failure is tolerated: `EnsureChain` still returns success, logs a
warning, and bumps the process-wide IPv6 chain-failure counter by
exactly one (conjunct four). -/
theorem ensureChain_spec {σ : Type} (E : Executor σ) (t c : String)
    (ipv6 : Bool) (s : St σ) (b : Bool) (e1 e2 : σ)
    (hprobe : E.chainExists t c s.exec = (e1, Except.ok b))
    (hrun : E.run .v4 (if b then Op.flush t c else Op.newChain t c) e1 =
      (e2, RunResult.ok)) :
    (ipv6 = false → ensureChain E false t c ipv6 s =
      ({ s with
          exec := e2,
          trace := s.trace ++
            [(Fam.v4, if b then Op.flush t c else Op.newChain t c)],
          logs := s.logs ++ [⟨.info,
            if b then "flushing existing chain" else "creating chain",
            [t, c, "false"]⟩] }, Except.ok ())) ∧
    (ipv6 = true → ∀ s3 : St σ,
      ensureIPv6Chain E false t c
          ({ s with
              exec := e2,
              trace := s.trace ++
                [(Fam.v4, if b then Op.flush t c else Op.newChain t c)],
              logs := s.logs ++ [⟨.info,
                if b then "flushing existing chain" else "creating chain",
                [t, c, "false"]⟩] }) = (s3, Except.ok ()) →
        ensureChain E false t c ipv6 s = (s3, Except.ok ()) ∧
          s3.ipv6ChainFailures = s.ipv6ChainFailures) ∧
    (ipv6 = true → ∀ (b6 : Bool) (f1 f2 : σ),
      E.chainExists6 t c e2 = (f1, Except.ok b6) →
      E.run .v6 (if b6 then Op.flush t c else Op.newChain t c) f1 =
        (f2, RunResult.ok) →
      ensureChain E false t c ipv6 s =
        ({ s with
            exec := f2,
            trace := s.trace ++
              [(Fam.v4, if b then Op.flush t c else Op.newChain t c),
                (Fam.v6, if b6 then Op.flush t c else Op.newChain t c)],
            logs := s.logs ++ [⟨.info,
              if b then "flushing existing chain" else "creating chain",
              [t, c, "false"]⟩,
              ⟨.info,
                if b6 then "flushing existing chain" else "creating chain",
                [t, c, "true"]⟩] }, Except.ok ())) ∧
    (ipv6 = true → ∀ (s3 : St σ) (msg : String),
      ensureIPv6Chain E false t c
          ({ s with
              exec := e2,
              trace := s.trace ++
                [(Fam.v4, if b then Op.flush t c else Op.newChain t c)],
              logs := s.logs ++ [⟨.info,
                if b then "flushing existing chain" else "creating chain",
                [t, c, "false"]⟩] }) = (s3, Except.error msg) →
        ensureChain E false t c ipv6 s =
          ({ s3 with
              ipv6ChainFailures := s3.ipv6ChainFailures + 1,
              logs := s3.logs ++
                [⟨.warn, "ip6tables chain preparation failed", [t, c]⟩] },
            Except.ok ()) ∧
          s3.ipv6ChainFailures = s.ipv6ChainFailures) := by
  refine ⟨?_, ?_, ?_, ?_⟩
  · intro hv
    subst hv
    cases b <;>
      simp_all [ensureChain, checkCtx, runChainExists, runCmd, logAt,
        throwErr, effBindDef, effPureDef, Eff.bind, Eff.pure, tryEff]
  · intro hv s3 h6
    subst hv
    constructor
    · cases b <;>
        simp_all [ensureChain, checkCtx, runChainExists, runCmd, logAt,
          throwErr, effBindDef, effPureDef, Eff.bind, Eff.pure, tryEff]
    · have hpres := preservesCM_ensureIPv6Chain E false t c
        ({ s with
            exec := e2,
            trace := s.trace ++
              [(Fam.v4, if b then Op.flush t c else Op.newChain t c)],
            logs := s.logs ++ [⟨.info,
              if b then "flushing existing chain" else "creating chain",
              [t, c, "false"]⟩] })
      rw [h6] at hpres
      exact hpres.1
  · intro hv b6 f1 f2 hprobe6 hrun6
    subst hv
    have h6 := ensureIPv6Chain_eval E t c
      ({ s with
          exec := e2,
          trace := s.trace ++
            [(Fam.v4, if b then Op.flush t c else Op.newChain t c)],
          logs := s.logs ++ [⟨.info,
            if b then "flushing existing chain" else "creating chain",
            [t, c, "false"]⟩] }) b6 f1 f2 hprobe6 hrun6
    cases b <;> cases b6 <;>
      simp_all [ensureChain, checkCtx, runChainExists, runCmd, logAt,
        throwErr, effBindDef, effPureDef, Eff.bind, Eff.pure, tryEff]
  · intro hv s3 msg h6
    subst hv
    constructor
    · cases b <;>
        simp_all [ensureChain, checkCtx, runChainExists, runCmd, logAt,
          throwErr, effBindDef, effPureDef, Eff.bind, Eff.pure, tryEff,
          incIPv6Failures]
    · have hpres := preservesCM_ensureIPv6Chain E false t c
        ({ s with
            exec := e2,
            trace := s.trace ++
              [(Fam.v4, if b then Op.flush t c else Op.newChain t c)],
            logs := s.logs ++ [⟨.info,
              if b then "flushing existing chain" else "creating chain",
              [t, c, "false"]⟩] })
      rw [h6] at hpres
      exact hpres.1

/-- Witness for C6: on the faithful executor with no chains and
dual-stack off, `EnsureChain` creates the chain and succeeds. -/
theorem ensureChain_spec_witness :
    ensureChain modelExec false "nat" "CANARY_DNAT" false
        (mkSt (⟨[], []⟩ : DualState)) =
      ({ mkSt (⟨[], []⟩ : DualState) with
          exec := (⟨[(("nat", "CANARY_DNAT"), [])], []⟩ : DualState),
          trace := [(Fam.v4, Op.newChain "nat" "CANARY_DNAT")],
          logs := [⟨.info, "creating chain", ["nat", "CANARY_DNAT", "false"]⟩] },
        Except.ok ()) :=
  (ensureChain_spec modelExec "nat" "CANARY_DNAT" false
      (mkSt (⟨[], []⟩ : DualState)) false (⟨[], []⟩ : DualState)
      (⟨[(("nat", "CANARY_DNAT"), [])], []⟩ : DualState) rfl rfl).1 rfl

/-! ## C2 — jump-manager metric/state coherence -/

/-- Bumping a labelled counter raises exactly that label's count by one. -/
theorem getCounter_incCounter_self (es : List (String × Nat)) (k : String) :
    getCounter (incCounter es k) k = getCounter es k + 1 := by
  induction es with
  | nil => simp [incCounter, getCounter]
  | cons hd tl ih =>
    obtain ⟨k1, n⟩ := hd
    by_cases hk : k1 = k
    · simp [incCounter, getCounter, hk]
    · simp [incCounter, getCounter, hk, ih]

/-- `errCount` after `incrementError` on the same label. -/
theorem errCount_incrementError_self (m : Metrics) (k : String) :
    (m.incrementError k).errCount k = m.errCount k + 1 := by
  simp [Metrics.incrementError, Metrics.errCount, getCounter_incCounter_self]

/-- C2.  For a call to `jumpManager.OnTransition` with distinct
configured values: when `current` is the preview value and `AddJump`
succeeds, the call succeeds, the jump gauge is set to 1 and the
`iptables` error counter is untouched; when `AddJump` fails, the error
is returned, the counter is incremented by one and the gauge keeps its
previous value.  Symmetrically for the active value with `RemoveJump`
and gauge 0. -/
theorem onTransition_metric_coherence {σ : Type} (E : Executor σ)
    (jm : JumpManagerCfg) (previous current : String) (s : St σ)
    (hne : jm.activeValue ≠ jm.previewValue) :
    (current = jm.previewValue →
      (∀ s2 : St σ,
        addJump E false jm.table jm.hook jm.chain jm.ipv6
            ({ s with logs := s.logs ++
              [⟨.info, "activating dnat jump", [previous, current]⟩] }) =
          (s2, Except.ok ()) →
        onTransition E false jm previous current s =
          ({ s2 with metrics := s2.metrics.setJumpActive true },
            Except.ok ()) ∧
        (onTransition E false jm previous current s).1.metrics.jumpActive = 1 ∧
        (onTransition E false jm previous current s).1.metrics.errCount
            "iptables" = s.metrics.errCount "iptables") ∧
      (∀ (s2 : St σ) (e : String),
        addJump E false jm.table jm.hook jm.chain jm.ipv6
            ({ s with logs := s.logs ++
              [⟨.info, "activating dnat jump", [previous, current]⟩] }) =
          (s2, Except.error e) →
        (onTransition E false jm previous current s).2 =
          Except.error ("add jump: " ++ e) ∧
        (onTransition E false jm previous current s).1.metrics.jumpActive =
          s.metrics.jumpActive ∧
        (onTransition E false jm previous current s).1.metrics.errCount
            "iptables" = s.metrics.errCount "iptables" + 1)) ∧
    (current = jm.activeValue →
      (∀ s2 : St σ,
        removeJump E false jm.table jm.hook jm.chain jm.ipv6
            ({ s with logs := s.logs ++
              [⟨.info, "deactivating dnat jump", [previous, current]⟩] }) =
          (s2, Except.ok ()) →
        onTransition E false jm previous current s =
          ({ s2 with metrics := s2.metrics.setJumpActive false },
            Except.ok ()) ∧
        (onTransition E false jm previous current s).1.metrics.jumpActive = 0 ∧
        (onTransition E false jm previous current s).1.metrics.errCount
            "iptables" = s.metrics.errCount "iptables") ∧
      (∀ (s2 : St σ) (e : String),
        removeJump E false jm.table jm.hook jm.chain jm.ipv6
            ({ s with logs := s.logs ++
              [⟨.info, "deactivating dnat jump", [previous, current]⟩] }) =
          (s2, Except.error e) →
        (onTransition E false jm previous current s).2 =
          Except.error ("remove jump: " ++ e) ∧
        (onTransition E false jm previous current s).1.metrics.jumpActive =
          s.metrics.jumpActive ∧
        (onTransition E false jm previous current s).1.metrics.errCount
            "iptables" = s.metrics.errCount "iptables" + 1)) := by
  constructor
  · intro hcur
    have hbeq : (current == jm.previewValue) = true := by
      simp [hcur]
    have hmet := preservesCM_addJump E false jm.table jm.hook jm.chain jm.ipv6
      ({ s with logs := s.logs ++
        [⟨.info, "activating dnat jump", [previous, current]⟩] })
    constructor
    · intro s2 hadd
      rw [hadd] at hmet
      have hs2 : s2.metrics = s.metrics := hmet.2
      have hrun : onTransition E false jm previous current s =
          ({ s2 with metrics := s2.metrics.setJumpActive true },
            Except.ok ()) := by
        simp [onTransition, hbeq, logAt, tryEff, setJumpActiveE,
          incrementErrorE, throwErr, effBindDef, effPureDef, Eff.bind,
          Eff.pure, hadd]
      refine ⟨hrun, ?_, ?_⟩
      · rw [hrun]
        simp [Metrics.setJumpActive]
      · rw [hrun]
        simp [Metrics.setJumpActive, Metrics.errCount, hs2]
    · intro s2 e hadd
      rw [hadd] at hmet
      have hs2 : s2.metrics = s.metrics := hmet.2
      have hrun : onTransition E false jm previous current s =
          ({ s2 with metrics := s2.metrics.incrementError "iptables" },
            Except.error ("add jump: " ++ e)) := by
        simp [onTransition, hbeq, logAt, tryEff, setJumpActiveE,
          incrementErrorE, throwErr, effBindDef, effPureDef, Eff.bind,
          Eff.pure, hadd]
      refine ⟨by rw [hrun], ?_, ?_⟩
      · rw [hrun]
        simp [Metrics.incrementError, hs2]
      · rw [hrun]
        simp [errCount_incrementError_self, hs2]
  · intro hcur
    have hbeq : (current == jm.previewValue) = false := by
      subst hcur
      simp [hne]
    have hbeq2 : (current == jm.activeValue) = true := by
      simp [hcur]
    have hmet := preservesCM_removeJump E false jm.table jm.hook jm.chain
      jm.ipv6
      ({ s with logs := s.logs ++
        [⟨.info, "deactivating dnat jump", [previous, current]⟩] })
    constructor
    · intro s2 hrem
      rw [hrem] at hmet
      have hs2 : s2.metrics = s.metrics := hmet.2
      have hrun : onTransition E false jm previous current s =
          ({ s2 with metrics := s2.metrics.setJumpActive false },
            Except.ok ()) := by
        simp [onTransition, hbeq, hbeq2, logAt, tryEff, setJumpActiveE,
          incrementErrorE, throwErr, effBindDef, effPureDef, Eff.bind,
          Eff.pure, hrem]
      refine ⟨hrun, ?_, ?_⟩
      · rw [hrun]
        simp [Metrics.setJumpActive]
      · rw [hrun]
        simp [Metrics.setJumpActive, Metrics.errCount, hs2]
    · intro s2 e hrem
      rw [hrem] at hmet
      have hs2 : s2.metrics = s.metrics := hmet.2
      have hrun : onTransition E false jm previous current s =
          ({ s2 with metrics := s2.metrics.incrementError "iptables" },
            Except.error ("remove jump: " ++ e)) := by
        simp [onTransition, hbeq, hbeq2, logAt, tryEff, setJumpActiveE,
          incrementErrorE, throwErr, effBindDef, effPureDef, Eff.bind,
          Eff.pure, hrem]
      refine ⟨by rw [hrun], ?_, ?_⟩
      · rw [hrun]
        simp [Metrics.incrementError, hs2]
      · rw [hrun]
        simp [errCount_incrementError_self, hs2]

/-- Witness for C2: a concrete preview transition on the faithful
executor succeeds and sets the gauge to 1 with no error count. -/
theorem onTransition_metric_coherence_witness :
    onTransition modelExec false
        ⟨"nat", "OUTPUT", "CANARY_DNAT", false, "active", "preview"⟩
        "active" "preview" (mkSt (⟨[], []⟩ : DualState)) =
      ({ exec := (⟨[(("nat", "OUTPUT"), [Rule.jump "CANARY_DNAT"])], []⟩ :
            DualState),
          trace := [(Fam.v4, Op.check "nat" "OUTPUT" (Rule.jump "CANARY_DNAT")),
            (Fam.v4, Op.insert "nat" "OUTPUT" 1 (Rule.jump "CANARY_DNAT"))],
          logs := [⟨.info, "activating dnat jump", ["active", "preview"]⟩,
            ⟨.info, "adding jump rule", ["nat", "OUTPUT", "CANARY_DNAT"]⟩],
          ipv6ChainFailures := 0,
          metrics := ⟨1, []⟩ }, Except.ok ()) ∧
    (onTransition modelExec false
        ⟨"nat", "OUTPUT", "CANARY_DNAT", false, "active", "preview"⟩
        "active" "preview" (mkSt (⟨[], []⟩ : DualState))).1.metrics.jumpActive
      = 1 := by
  have h := (onTransition_metric_coherence modelExec
    ⟨"nat", "OUTPUT", "CANARY_DNAT", false, "active", "preview"⟩
    "active" "preview" (mkSt (⟨[], []⟩ : DualState))
    (by decide)).1 rfl
  have h2 := h.1
    ({ exec := (⟨[(("nat", "OUTPUT"), [Rule.jump "CANARY_DNAT"])], []⟩ :
          DualState),
        trace := [(Fam.v4, Op.check "nat" "OUTPUT" (Rule.jump "CANARY_DNAT")),
          (Fam.v4, Op.insert "nat" "OUTPUT" 1 (Rule.jump "CANARY_DNAT"))],
        logs := [⟨.info, "activating dnat jump", ["active", "preview"]⟩,
          ⟨.info, "adding jump rule", ["nat", "OUTPUT", "CANARY_DNAT"]⟩],
        ipv6ChainFailures := 0,
        metrics := ⟨0, []⟩ }) rfl
  exact ⟨h2.1, h2.2.1⟩

/-! ## C8 — `OnTransition` is independent of `previous` -/

/-- Componentwise characterization of equality up to logs. -/
theorem stripLogs_eq_iff {σ : Type} (s t : St σ) :
    stripLogs s = stripLogs t ↔
      s.exec = t.exec ∧ s.trace = t.trace ∧
        s.ipv6ChainFailures = t.ipv6ChainFailures ∧ s.metrics = t.metrics := by
  constructor
  · intro hst
    cases s
    cases t
    simp_all [stripLogs]
  · rintro ⟨h1, h2, h3, h4⟩
    cases s
    cases t
    simp_all [stripLogs]

/-- Binding preserves log-insensitive agreement. -/
theorem agrees_bind {σ α β : Type} {x y : Eff σ α} {f g : α → Eff σ β}
    (hxy : AgreesExceptLogs x y) (hfg : ∀ a, AgreesExceptLogs (f a) (g a)) :
    AgreesExceptLogs (Eff.bind x f) (Eff.bind y g) := by
  intro s t hst
  have hx := hxy s t hst
  unfold Eff.bind
  rcases h1 : x s with ⟨s1, r1⟩
  rcases h2 : y t with ⟨t1, r2⟩
  rw [h1, h2] at hx
  obtain ⟨hss, hrr⟩ := hx
  simp only at hss hrr
  subst hrr
  cases r1 with
  | ok a => exact hfg a s1 t1 hss
  | error e => exact ⟨hss, rfl⟩

/-- Any two log emissions agree up to logs. -/
theorem agrees_logAt {σ : Type} (l l2 : LogLevel) (m m2 : String)
    (a a2 : List String) :
    AgreesExceptLogs (σ := σ) (logAt l m a) (logAt l2 m2 a2) := by
  intro s t hst
  obtain ⟨h1, h2, h3, h4⟩ := (stripLogs_eq_iff s t).1 hst
  exact ⟨(stripLogs_eq_iff _ _).2 ⟨h1, h2, h3, h4⟩, rfl⟩

/-- `pure` agrees with itself up to logs. -/
theorem agrees_pure {σ α : Type} (a : α) :
    AgreesExceptLogs (σ := σ) (Eff.pure a) (Eff.pure a) := by
  intro s t hst
  exact ⟨hst, rfl⟩

/-- `throwErr` agrees with itself up to logs. -/
theorem agrees_throwErr {σ α : Type} (m : String) :
    AgreesExceptLogs (σ := σ) (α := α) (throwErr m) (throwErr m) := by
  intro s t hst
  exact ⟨hst, rfl⟩

/-- `tryEff` preserves log-insensitive agreement. -/
theorem agrees_tryEff {σ α : Type} {x y : Eff σ α}
    (hxy : AgreesExceptLogs x y) :
    AgreesExceptLogs (tryEff x) (tryEff y) := by
  intro s t hst
  have hx := hxy s t hst
  unfold tryEff
  rcases h1 : x s with ⟨s1, r1⟩
  rcases h2 : y t with ⟨t1, r2⟩
  rw [h1, h2] at hx
  obtain ⟨hss, hrr⟩ := hx
  simp only at hss hrr
  subst hrr
  cases r1 <;> exact ⟨hss, rfl⟩

/-- The metric writes agree with themselves up to logs. -/
theorem agrees_incrementErrorE {σ : Type} (k : String) :
    AgreesExceptLogs (σ := σ) (incrementErrorE k) (incrementErrorE k) := by
  intro s t hst
  obtain ⟨h1, h2, h3, h4⟩ := (stripLogs_eq_iff s t).1 hst
  refine ⟨(stripLogs_eq_iff _ _).2 ⟨h1, h2, h3, ?_⟩, rfl⟩
  simp [incrementErrorE, h4]

/-- The gauge writes agree with themselves up to logs. -/
theorem agrees_setJumpActiveE {σ : Type} (b : Bool) :
    AgreesExceptLogs (σ := σ) (setJumpActiveE b) (setJumpActiveE b) := by
  intro s t hst
  obtain ⟨h1, h2, h3, h4⟩ := (stripLogs_eq_iff s t).1 hst
  refine ⟨(stripLogs_eq_iff _ _).2 ⟨h1, h2, h3, ?_⟩, rfl⟩
  simp [setJumpActiveE, h4]

/-- `AddJump` reads nothing from the logs: from inputs equal up to
logs it produces outputs equal up to logs, with equal results. -/
theorem agrees_addJump {σ : Type} (E : Executor σ) (ctx : Bool)
    (tb h c : String) (v6 : Bool) :
    AgreesExceptLogs (addJump E ctx tb h c v6) (addJump E ctx tb h c v6) := by
  intro s t hst
  obtain ⟨hexec, htrace, hcnt, hmet⟩ := (stripLogs_eq_iff s t).1 hst
  cases ctx with
  | true =>
    simp only [addJump, checkCtx, throwErr, effBindDef, Eff.bind, if_true]
    exact ⟨hst, trivial⟩
  | false =>
    simp only [addJump, jumpExists, jumpExistsWithBinary, checkCtx,
      Bool.false_eq_true, if_false, Eff.bind, Eff.pure, tryEff, runCmd,
      logAt, throwErr, effBindDef, effPureDef]
    rcases hE1 : E.run Fam.v4 (Op.check tb h (Rule.jump c)) s.exec with ⟨e1, r1⟩
    have hE1t : E.run Fam.v4 (Op.check tb h (Rule.jump c)) t.exec = (e1, r1) :=
      hexec ▸ hE1
    simp only [hE1, hE1t]
    rcases r1 with _ | n1 | _
    · simp_all [stripLogs, Eff.bind, Eff.pure, tryEff, runCmd, logAt, throwErr,
        effBindDef, effPureDef]
    · rcases n1 with _ | n1
      · simp_all [stripLogs, Eff.bind, Eff.pure, tryEff, runCmd, logAt,
          throwErr, effBindDef, effPureDef]
      · rcases n1 with _ | n1
        · try simp [Eff.bind, Eff.pure, tryEff, runCmd, logAt, throwErr,
            effBindDef, effPureDef]
          rcases hE2 : E.run Fam.v4 (Op.insert tb h 1 (Rule.jump c)) e1
            with ⟨e2, r2⟩
          try simp only [hE2]
          rcases r2 with _ | n2 | _
          · cases v6 with
            | false =>
              simp_all [stripLogs, Eff.bind, Eff.pure, tryEff, runCmd, logAt,
                throwErr, effBindDef, effPureDef]
            | true =>
              try simp [if_true, Eff.bind, Eff.pure, tryEff, runCmd, logAt,
                throwErr, effBindDef, effPureDef]
              rcases hE3 : E.run Fam.v6 (Op.check tb h (Rule.jump c)) e2
                with ⟨e3, r3⟩
              try simp only [hE3]
              rcases r3 with _ | n3 | _
              · simp_all [stripLogs, Eff.bind, Eff.pure, tryEff, runCmd,
                  logAt, throwErr, effBindDef, effPureDef]
              · rcases n3 with _ | n3
                · try simp [Eff.bind, Eff.pure, tryEff, runCmd, logAt,
                    throwErr, effBindDef, effPureDef]
                  rcases hE4 : E.run Fam.v6 (Op.insert tb h 1 (Rule.jump c)) e3
                    with ⟨e4, r4⟩
                  try simp only [hE4]
                  rcases r4 with _ | n4 | _ <;>
                    simp_all [stripLogs, Eff.bind, Eff.pure, tryEff, runCmd,
                      logAt, throwErr, effBindDef, effPureDef]
                · rcases n3 with _ | n3
                  · try simp [Eff.bind, Eff.pure, tryEff, runCmd, logAt,
                      throwErr, effBindDef, effPureDef]
                    rcases hE4 : E.run Fam.v6 (Op.insert tb h 1 (Rule.jump c))
                      e3 with ⟨e4, r4⟩
                    try simp only [hE4]
                    rcases r4 with _ | n4 | _ <;>
                      simp_all [stripLogs, Eff.bind, Eff.pure, tryEff, runCmd,
                        logAt, throwErr, effBindDef, effPureDef]
                  · try simp [Eff.bind, Eff.pure, tryEff, runCmd, logAt,
                      throwErr, effBindDef, effPureDef]
                    rcases hE4 : E.run Fam.v6 (Op.insert tb h 1 (Rule.jump c))
                      e3 with ⟨e4, r4⟩
                    try simp only [hE4]
                    rcases r4 with _ | n4 | _ <;>
                      simp_all [stripLogs, Eff.bind, Eff.pure, tryEff, runCmd,
                        logAt, throwErr, effBindDef, effPureDef]
              · try simp [Eff.bind, Eff.pure, tryEff, runCmd, logAt, throwErr,
                  effBindDef, effPureDef]
                rcases hE4 : E.run Fam.v6 (Op.insert tb h 1 (Rule.jump c)) e3
                  with ⟨e4, r4⟩
                try simp only [hE4]
                rcases r4 with _ | n4 | _ <;>
                  simp_all [stripLogs, Eff.bind, Eff.pure, tryEff, runCmd,
                    logAt, throwErr, effBindDef, effPureDef]
          · simp_all [stripLogs, Eff.bind, Eff.pure, tryEff, runCmd, logAt,
              throwErr, effBindDef, effPureDef]
          · simp_all [stripLogs, Eff.bind, Eff.pure, tryEff, runCmd, logAt,
              throwErr, effBindDef, effPureDef]
        · simp_all [stripLogs, Eff.bind, Eff.pure, tryEff, runCmd, logAt,
            throwErr, effBindDef, effPureDef]
    · simp_all [stripLogs, Eff.bind, Eff.pure, tryEff, runCmd, logAt, throwErr,
        effBindDef, effPureDef]

/-- `RemoveJump` reads nothing from the logs. -/
theorem agrees_removeJump {σ : Type} (E : Executor σ) (ctx : Bool)
    (tb h c : String) (v6 : Bool) :
    AgreesExceptLogs (removeJump E ctx tb h c v6)
      (removeJump E ctx tb h c v6) := by
  intro s t hst
  obtain ⟨hexec, htrace, hcnt, hmet⟩ := (stripLogs_eq_iff s t).1 hst
  cases ctx with
  | true =>
    simp only [removeJump, checkCtx, throwErr, effBindDef, Eff.bind, if_true]
    exact ⟨hst, trivial⟩
  | false =>
    simp only [removeJump, jumpExists, jumpExistsWithBinary, checkCtx,
      Bool.false_eq_true, if_false, Eff.bind, Eff.pure, tryEff, runCmd,
      logAt, throwErr, effBindDef, effPureDef]
    rcases hE1 : E.run Fam.v4 (Op.check tb h (Rule.jump c)) s.exec with ⟨e1, r1⟩
    have hE1t : E.run Fam.v4 (Op.check tb h (Rule.jump c)) t.exec = (e1, r1) :=
      hexec ▸ hE1
    simp only [hE1, hE1t]
    rcases r1 with _ | n1 | _
    · try simp [Eff.bind, Eff.pure, tryEff, runCmd, logAt, throwErr,
        effBindDef, effPureDef]
      rcases hE2 : E.run Fam.v4 (Op.delete tb h (Rule.jump c)) e1 with ⟨e2, r2⟩
      try simp only [hE2]
      rcases r2 with _ | n2 | _
      · cases v6 with
        | false =>
          simp_all [stripLogs, Eff.bind, Eff.pure, tryEff, runCmd, logAt,
            throwErr, effBindDef, effPureDef]
        | true =>
          try simp [Eff.bind, Eff.pure, tryEff, runCmd, logAt, throwErr,
            effBindDef, effPureDef]
          rcases hE3 : E.run Fam.v6 (Op.check tb h (Rule.jump c)) e2
            with ⟨e3, r3⟩
          try simp only [hE3]
          rcases r3 with _ | n3 | _
          · try simp [Eff.bind, Eff.pure, tryEff, runCmd, logAt, throwErr,
              effBindDef, effPureDef]
            rcases hE4 : E.run Fam.v6 (Op.delete tb h (Rule.jump c)) e3
              with ⟨e4, r4⟩
            try simp only [hE4]
            rcases r4 with _ | n4 | _ <;>
              simp_all [stripLogs, Eff.bind, Eff.pure, tryEff, runCmd, logAt,
                throwErr, effBindDef, effPureDef]
          · rcases n3 with _ | n3
            · simp_all [stripLogs, Eff.bind, Eff.pure, tryEff, runCmd, logAt,
                throwErr, effBindDef, effPureDef]
            · rcases n3 with _ | n3 <;>
                simp_all [stripLogs, Eff.bind, Eff.pure, tryEff, runCmd,
                  logAt, throwErr, effBindDef, effPureDef]
          · simp_all [stripLogs, Eff.bind, Eff.pure, tryEff, runCmd, logAt,
              throwErr, effBindDef, effPureDef]
      · simp_all [stripLogs, Eff.bind, Eff.pure, tryEff, runCmd, logAt,
          throwErr, effBindDef, effPureDef]
      · simp_all [stripLogs, Eff.bind, Eff.pure, tryEff, runCmd, logAt,
          throwErr, effBindDef, effPureDef]
    · rcases n1 with _ | n1
      · simp_all [stripLogs, Eff.bind, Eff.pure, tryEff, runCmd, logAt,
          throwErr, effBindDef, effPureDef]
      · rcases n1 with _ | n1
        · cases v6 with
          | false =>
            simp_all [stripLogs, Eff.bind, Eff.pure, tryEff, runCmd, logAt,
              throwErr, effBindDef, effPureDef]
          | true =>
            try simp [Eff.bind, Eff.pure, tryEff, runCmd, logAt, throwErr,
              effBindDef, effPureDef]
            rcases hE3 : E.run Fam.v6 (Op.check tb h (Rule.jump c)) e1
              with ⟨e3, r3⟩
            try simp only [hE3]
            rcases r3 with _ | n3 | _
            · try simp [Eff.bind, Eff.pure, tryEff, runCmd, logAt, throwErr,
                effBindDef, effPureDef]
              rcases hE4 : E.run Fam.v6 (Op.delete tb h (Rule.jump c)) e3
                with ⟨e4, r4⟩
              try simp only [hE4]
              rcases r4 with _ | n4 | _ <;>
                simp_all [stripLogs, Eff.bind, Eff.pure, tryEff, runCmd,
                  logAt, throwErr, effBindDef, effPureDef]
            · rcases n3 with _ | n3
              · simp_all [stripLogs, Eff.bind, Eff.pure, tryEff, runCmd,
                  logAt, throwErr, effBindDef, effPureDef]
              · rcases n3 with _ | n3 <;>
                  simp_all [stripLogs, Eff.bind, Eff.pure, tryEff, runCmd,
                    logAt, throwErr, effBindDef, effPureDef]
            · simp_all [stripLogs, Eff.bind, Eff.pure, tryEff, runCmd, logAt,
                throwErr, effBindDef, effPureDef]
        · simp_all [stripLogs, Eff.bind, Eff.pure, tryEff, runCmd, logAt,
            throwErr, effBindDef, effPureDef]
    · simp_all [stripLogs, Eff.bind, Eff.pure, tryEff, runCmd, logAt,
        throwErr, effBindDef, effPureDef]

/-- The whole handler agrees with itself up to logs when only the
`previous` argument differs. -/
theorem agrees_onTransition {σ : Type} (E : Executor σ) (jm : JumpManagerCfg)
    (cur p1 p2 : String) :
    AgreesExceptLogs (onTransition E false jm p1 cur)
      (onTransition E false jm p2 cur) := by
  by_cases hprev : (cur == jm.previewValue) = true
  · simp only [onTransition, hprev, if_true, effBindDef]
    refine agrees_bind (agrees_logAt _ _ _ _ _ _) ?_
    intro _
    refine agrees_bind (agrees_tryEff (agrees_addJump E false jm.table jm.hook
      jm.chain jm.ipv6)) ?_
    intro r
    rcases r with e | a
    · exact agrees_bind (agrees_incrementErrorE _) fun _ => agrees_throwErr _
    · exact agrees_setJumpActiveE _
  · by_cases hact : (cur == jm.activeValue) = true
    · simp only [onTransition, hprev, hact, if_true, Bool.false_eq_true,
        if_false, effBindDef]
      refine agrees_bind (agrees_logAt _ _ _ _ _ _) ?_
      intro _
      refine agrees_bind (agrees_tryEff (agrees_removeJump E false jm.table
        jm.hook jm.chain jm.ipv6)) ?_
      intro r
      rcases r with e | a
      · exact agrees_bind (agrees_incrementErrorE _) fun _ => agrees_throwErr _
      · exact agrees_setJumpActiveE _
    · simp only [onTransition, hprev, hact, Bool.false_eq_true, if_false,
        effBindDef]
      exact agrees_logAt _ _ _ _ _ _

/-- C8.  `jumpManager.OnTransition` depends only on `current`: for any
two `previous` strings, the two runs from the same state issue the same
executor commands (equal executor state and trace), perform the same
metric updates, leave the failure counter alike, and return equal
results; `previous` can only influence the log records. -/
theorem onTransition_previous_noninterference {σ : Type} (E : Executor σ)
    (jm : JumpManagerCfg) (cur p1 p2 : String) (s : St σ) :
    (onTransition E false jm p1 cur s).1.exec =
        (onTransition E false jm p2 cur s).1.exec ∧
      (onTransition E false jm p1 cur s).1.trace =
        (onTransition E false jm p2 cur s).1.trace ∧
      (onTransition E false jm p1 cur s).1.metrics =
        (onTransition E false jm p2 cur s).1.metrics ∧
      (onTransition E false jm p1 cur s).1.ipv6ChainFailures =
        (onTransition E false jm p2 cur s).1.ipv6ChainFailures ∧
      (onTransition E false jm p1 cur s).2 =
        (onTransition E false jm p2 cur s).2 := by
  have h := agrees_onTransition E jm cur p1 p2 s s rfl
  obtain ⟨hstate, hres⟩ := h
  obtain ⟨h1, h2, h3, h4⟩ :=
    (stripLogs_eq_iff ((onTransition E false jm p1 cur s).1)
      ((onTransition E false jm p2 cur s).1)).1 hstate
  exact ⟨h1, h2, h4, h3, hres⟩

/-! ## C4 — AddDNATRules on valid mappings -/

/-- `AddDNATRules` loop invariant under an always-succeeding executor:
on mappings with non-empty IPs and non-zero ports, it appends exactly
one DNAT rule per eligible mapping (same family; IPv6 only with
dual-stack), skips the rest without issuing commands, succeeds, and
adds the number of appended rules to the running count. -/
theorem addDNATRulesAux_ok {σ : Type} (E : Executor σ) (isV6 : String → Bool)
    (table chain : String) (ipv6 : Bool)
    (hE : ∀ (fam : Fam) (op : Op) (e : σ), (E.run fam op e).2 = RunResult.ok) :
    ∀ (ms : List ServiceMapping) (added : Nat) (s : St σ),
    (∀ m ∈ ms, m.activeClusterIP ≠ "" ∧ m.previewClusterIP ≠ "" ∧ m.port ≠ 0) →
    (addDNATRulesAux E false isV6 table chain ipv6 ms added s).2.1 =
        added + (ms.filter (eligibleMapping isV6 ipv6)).length ∧
      (addDNATRulesAux E false isV6 table chain ipv6 ms added s).2.2 = none ∧
      (addDNATRulesAux E false isV6 table chain ipv6 ms added s).1.trace =
        s.trace ++ (ms.filter (eligibleMapping isV6 ipv6)).map
          (fun m => (famOf isV6 m, Op.append table chain (dnatRuleOf m))) := by
  intro ms
  induction ms with
  | nil => intro added s _; simp [addDNATRulesAux]
  | cons m rest ih =>
    intro added s hvalid
    obtain ⟨ha, hp, hport⟩ := hvalid m (List.mem_cons_self m rest)
    have hrest : ∀ x ∈ rest,
        x.activeClusterIP ≠ "" ∧ x.previewClusterIP ≠ "" ∧ x.port ≠ 0 :=
      fun x hx => hvalid x (List.mem_cons_of_mem m hx)
    cases h6a : isV6 m.activeClusterIP <;> cases h6p : isV6 m.previewClusterIP
    · -- both v4: eligible, append with the v4 binary
      have ihr := ih (added + 1)
        ({ s with
            logs := s.logs ++ [⟨.info, "adding dnat rule", [m.serviceName]⟩],
            exec := (E.run Fam.v4
              (Op.append table chain (dnatRuleOf m)) s.exec).1,
            trace := s.trace ++
              [(Fam.v4, Op.append table chain (dnatRuleOf m))] }) hrest
      simp only [addDNATRulesAux, ha, hp, hport, h6a, h6p, hE] at ihr ⊢
      simp_all [eligibleMapping, famOf, h6a, h6p, Nat.add_assoc,
        Nat.add_comm 1]
    · -- mixed: skipped
      have ihr := ih added
        ({ s with logs := s.logs ++
          [⟨.warn, "skipping dnat rule due to mixed IP families",
            [m.serviceName]⟩] }) hrest
      simp only [addDNATRulesAux, ha, hp, hport, h6a, h6p] at ihr ⊢
      simp_all [eligibleMapping, h6a, h6p]
    · -- mixed: skipped
      have ihr := ih added
        ({ s with logs := s.logs ++
          [⟨.warn, "skipping dnat rule due to mixed IP families",
            [m.serviceName]⟩] }) hrest
      simp only [addDNATRulesAux, ha, hp, hport, h6a, h6p] at ihr ⊢
      simp_all [eligibleMapping, h6a, h6p]
    · -- both v6: appended only with dual-stack on
      cases hip : ipv6 with
      | false =>
        have ihr := ih added
          ({ s with logs := s.logs ++
            [⟨.warn, "skipping ipv6 dnat rule without ipv6 support",
              [m.serviceName]⟩] }) hrest
        simp only [addDNATRulesAux, ha, hp, hport, h6a, h6p] at ihr ⊢
        simp_all [eligibleMapping, h6a, h6p]
      | true =>
        have ihr := ih (added + 1)
          ({ s with
              logs := s.logs ++
                [⟨.info, "adding dnat rule", [m.serviceName]⟩],
              exec := (E.run Fam.v6
                (Op.append table chain (dnatRuleOf m)) s.exec).1,
              trace := s.trace ++
                [(Fam.v6, Op.append table chain (dnatRuleOf m))] }) hrest
        simp only [addDNATRulesAux, ha, hp, hport, h6a, h6p, hE] at ihr ⊢
        simp_all [eligibleMapping, famOf, h6a, h6p, Nat.add_assoc,
          Nat.add_comm 1]

/-- C4.  On any list of mappings satisfying the data-model invariant
(non-empty IPs, non-zero port) and an executor whose appends succeed,
`AddDNATRules` issues exactly one append of the DNAT rule (destination
= active IP, protocol, destination port, rewrite to preview-IP:port,
with the family's binary) for each mapping whose IPs share a family —
IPv6 ones only when dual-stack is enabled — and issues nothing for
mixed-family mappings or IPv6 mappings without dual-stack; it returns
no error and a count equal to the number of rules actually inserted,
not the length of the input list. -/
theorem addDNATRules_spec {σ : Type} (E : Executor σ) (isV6 : String → Bool)
    (table chain : String) (ms : List ServiceMapping) (ipv6 : Bool) (s : St σ)
    (hE : ∀ (fam : Fam) (op : Op) (e : σ), (E.run fam op e).2 = RunResult.ok)
    (hvalid : ∀ m ∈ ms,
      m.activeClusterIP ≠ "" ∧ m.previewClusterIP ≠ "" ∧ m.port ≠ 0) :
    (addDNATRules E false isV6 table chain ms ipv6 s).2.1 =
        (ms.filter (eligibleMapping isV6 ipv6)).length ∧
      (addDNATRules E false isV6 table chain ms ipv6 s).2.2 = none ∧
      (addDNATRules E false isV6 table chain ms ipv6 s).1.trace =
        s.trace ++ (ms.filter (eligibleMapping isV6 ipv6)).map
          (fun m => (famOf isV6 m, Op.append table chain (dnatRuleOf m))) := by
  have h := addDNATRulesAux_ok E isV6 table chain ipv6 hE ms 0 s hvalid
  simpa [addDNATRules] using h

/-- Witness for C4: two same-family mappings and one mixed-family
mapping yield two appended rules and count 2. -/
theorem addDNATRules_spec_witness :
    (addDNATRules okExec false (fun ip => ip.toList.contains ':') "nat"
        "CANARY_DNAT"
        [⟨"orders", 80, "TCP", "10.0.0.10", "10.0.1.10"⟩,
          ⟨"bad", 81, "TCP", "10.0.0.11", "fd00::1"⟩,
          ⟨"payment", 443, "TCP", "10.0.0.20", "10.0.1.20"⟩]
        false (mkSt ())).2.1 = 2 := by
  have h := (addDNATRules_spec okExec (fun ip => ip.toList.contains ':')
    "nat" "CANARY_DNAT"
    [⟨"orders", 80, "TCP", "10.0.0.10", "10.0.1.10"⟩,
      ⟨"bad", 81, "TCP", "10.0.0.11", "fd00::1"⟩,
      ⟨"payment", 443, "TCP", "10.0.0.20", "10.0.1.20"⟩]
    false (mkSt ()) (fun _ _ _ => rfl) (by decide)).1
  rw [h]
  decide

/-! ## C9 — AddDNATRules is not atomic on failure -/

/-- Failure invariant of the `AddDNATRules` loop on the scripted
executor: with the script supplying one success per eligible mapping of
the prefix and then a failure, the loop appends the prefix's rules,
fails on the distinguished mapping, returns the running count plus the
prefix's insertions, and never reaches the suffix. -/
theorem addDNATRulesAux_failure (isV6 : String → Bool)
    (table chain : String) (ipv6 : Bool) (m : ServiceMapping)
    (ms2 : List ServiceMapping) (res : RunResult) (rest : List RunResult)
    (hvm : m.activeClusterIP ≠ "" ∧ m.previewClusterIP ≠ "" ∧ m.port ≠ 0)
    (helig : eligibleMapping isV6 ipv6 m = true)
    (hres : res ≠ RunResult.ok) :
    ∀ (ms1 : List ServiceMapping) (added : Nat) (s : St (List RunResult)),
    (∀ x ∈ ms1, x.activeClusterIP ≠ "" ∧ x.previewClusterIP ≠ "" ∧
      x.port ≠ 0) →
    s.exec = List.replicate ((ms1.filter (eligibleMapping isV6 ipv6)).length)
      RunResult.ok ++ res :: rest →
    (addDNATRulesAux scriptExec false isV6 table chain ipv6
        (ms1 ++ m :: ms2) added s).2.1 =
        added + (ms1.filter (eligibleMapping isV6 ipv6)).length ∧
      (addDNATRulesAux scriptExec false isV6 table chain ipv6
        (ms1 ++ m :: ms2) added s).2.2 =
        some ("add dnat rule for " ++ m.serviceName) ∧
      (addDNATRulesAux scriptExec false isV6 table chain ipv6
        (ms1 ++ m :: ms2) added s).1.trace =
        s.trace ++ (ms1.filter (eligibleMapping isV6 ipv6)).map
          (fun x => (famOf isV6 x, Op.append table chain (dnatRuleOf x))) ++
          [(famOf isV6 m, Op.append table chain (dnatRuleOf m))] := by
  intro ms1
  induction ms1 with
  | nil =>
    intro added s _ hscript
    obtain ⟨ha, hp, hport⟩ := hvm
    simp only [List.filter_nil, List.length_nil, List.replicate_zero,
      List.nil_append] at hscript
    cases h6a : isV6 m.activeClusterIP <;> cases h6p : isV6 m.previewClusterIP
    · rcases res with _ | n | _
      · exact absurd rfl hres
      · simp only [addDNATRulesAux, ha, hp, hport, h6a, h6p]
        simp_all [scriptExec, famOf, h6a]
      · simp only [addDNATRulesAux, ha, hp, hport, h6a, h6p]
        simp_all [scriptExec, famOf, h6a]
    · simp_all [eligibleMapping, h6a, h6p]
    · simp_all [eligibleMapping, h6a, h6p]
    · have hip : ipv6 = true := by
        simp_all [eligibleMapping, h6a, h6p]
      subst hip
      rcases res with _ | n | _
      · exact absurd rfl hres
      · simp only [addDNATRulesAux, ha, hp, hport, h6a, h6p]
        simp_all [scriptExec, famOf, h6a]
      · simp only [addDNATRulesAux, ha, hp, hport, h6a, h6p]
        simp_all [scriptExec, famOf, h6a]
  | cons x ms1 ih =>
    intro added s hvalid hscript
    obtain ⟨hxa, hxp, hxport⟩ := hvalid x (List.mem_cons_self x ms1)
    have hrest : ∀ y ∈ ms1, y.activeClusterIP ≠ "" ∧ y.previewClusterIP ≠ ""
        ∧ y.port ≠ 0 := fun y hy => hvalid y (List.mem_cons_of_mem x hy)
    cases h6a : isV6 x.activeClusterIP <;> cases h6p : isV6 x.previewClusterIP
    · -- x eligible, family v4: consumes one ok from the script
      have hfilter : (x :: ms1).filter (eligibleMapping isV6 ipv6) =
          x :: ms1.filter (eligibleMapping isV6 ipv6) := by
        simp [eligibleMapping, h6a, h6p]
      rw [hfilter] at hscript
      simp only [List.length_cons, List.replicate_succ, List.cons_append]
        at hscript
      have ihr := ih (added + 1)
        ({ s with
            logs := s.logs ++ [⟨.info, "adding dnat rule", [x.serviceName]⟩],
            exec := (scriptExec.run Fam.v4
              (Op.append table chain (dnatRuleOf x)) s.exec).1,
            trace := s.trace ++
              [(Fam.v4, Op.append table chain (dnatRuleOf x))] }) hrest
        (by simp [scriptExec, hscript])
      simp only [List.cons_append, addDNATRulesAux, hxa, hxp, hxport, h6a,
        h6p] at ihr ⊢
      simp_all [scriptExec, eligibleMapping, famOf, h6a, h6p,
        Nat.add_assoc, Nat.add_comm 1]
    · -- x mixed: skipped, script untouched
      have hskip : (x :: ms1).filter (eligibleMapping isV6 ipv6) =
          ms1.filter (eligibleMapping isV6 ipv6) := by
        simp [eligibleMapping, h6a, h6p]
      rw [hskip] at hscript
      have ihr := ih added
        ({ s with logs := s.logs ++
          [⟨.warn, "skipping dnat rule due to mixed IP families",
            [x.serviceName]⟩] }) hrest (by simpa using hscript)
      simp only [List.cons_append, addDNATRulesAux, hxa, hxp, hxport, h6a,
        h6p] at ihr ⊢
      simp_all [eligibleMapping, h6a, h6p]
    · have hskip : (x :: ms1).filter (eligibleMapping isV6 ipv6) =
          ms1.filter (eligibleMapping isV6 ipv6) := by
        simp [eligibleMapping, h6a, h6p]
      rw [hskip] at hscript
      have ihr := ih added
        ({ s with logs := s.logs ++
          [⟨.warn, "skipping dnat rule due to mixed IP families",
            [x.serviceName]⟩] }) hrest (by simpa using hscript)
      simp only [List.cons_append, addDNATRulesAux, hxa, hxp, hxport, h6a,
        h6p] at ihr ⊢
      simp_all [eligibleMapping, h6a, h6p]
    · cases hip : ipv6 with
      | false =>
        subst hip
        have hskip : (x :: ms1).filter (eligibleMapping isV6 false) =
            ms1.filter (eligibleMapping isV6 false) := by
          simp [eligibleMapping, h6a, h6p]
        rw [hskip] at hscript
        have ihr := ih added
          ({ s with logs := s.logs ++
            [⟨.warn, "skipping ipv6 dnat rule without ipv6 support",
              [x.serviceName]⟩] }) hrest (by simpa using hscript)
        simp only [List.cons_append, addDNATRulesAux, hxa, hxp, hxport, h6a,
          h6p] at ihr ⊢
        simp_all [eligibleMapping, h6a, h6p]
      | true =>
        have hfilter : (x :: ms1).filter (eligibleMapping isV6 true) =
            x :: ms1.filter (eligibleMapping isV6 true) := by
          simp [eligibleMapping, h6a, h6p]
        subst hip
        rw [hfilter] at hscript
        simp only [List.length_cons, List.replicate_succ, List.cons_append]
          at hscript
        have ihr := ih (added + 1)
          ({ s with
              logs := s.logs ++
                [⟨.info, "adding dnat rule", [x.serviceName]⟩],
              exec := (scriptExec.run Fam.v6
                (Op.append table chain (dnatRuleOf x)) s.exec).1,
              trace := s.trace ++
                [(Fam.v6, Op.append table chain (dnatRuleOf x))] }) hrest
          (by simp [scriptExec, hscript])
        simp only [List.cons_append, addDNATRulesAux, hxa, hxp, hxport, h6a,
          h6p] at ihr ⊢
        simp_all [scriptExec, eligibleMapping, famOf, h6a, h6p,
          Nat.add_assoc, Nat.add_comm 1]

/-- C9.  `AddDNATRules` is not atomic on failure: with the scripted
executor succeeding on every append of the (valid) prefix and failing
on the distinguished eligible mapping, the function stops immediately:
it returns the error naming that mapping together with the count of
rules appended before the failure; the trace delta is exactly the
prefix's appends plus the failing append — every command issued is an
append (nothing is deleted or rolled back) and no command is issued
for any suffix mapping. -/
theorem addDNATRules_failure_spec (isV6 : String → Bool)
    (table chain : String) (ipv6 : Bool) (ms1 : List ServiceMapping)
    (m : ServiceMapping) (ms2 : List ServiceMapping) (res : RunResult)
    (rest : List RunResult) (s : St (List RunResult))
    (hvalid : ∀ x ∈ ms1, x.activeClusterIP ≠ "" ∧ x.previewClusterIP ≠ "" ∧
      x.port ≠ 0)
    (hvm : m.activeClusterIP ≠ "" ∧ m.previewClusterIP ≠ "" ∧ m.port ≠ 0)
    (helig : eligibleMapping isV6 ipv6 m = true)
    (hres : res ≠ RunResult.ok)
    (hscript : s.exec =
      List.replicate ((ms1.filter (eligibleMapping isV6 ipv6)).length)
        RunResult.ok ++ res :: rest) :
    (addDNATRules scriptExec false isV6 table chain (ms1 ++ m :: ms2) ipv6
        s).2.1 = (ms1.filter (eligibleMapping isV6 ipv6)).length ∧
      (addDNATRules scriptExec false isV6 table chain (ms1 ++ m :: ms2) ipv6
        s).2.2 = some ("add dnat rule for " ++ m.serviceName) ∧
      (addDNATRules scriptExec false isV6 table chain (ms1 ++ m :: ms2) ipv6
        s).1.trace =
        s.trace ++ ((ms1.filter (eligibleMapping isV6 ipv6)).map
          (fun x => (famOf isV6 x, Op.append table chain (dnatRuleOf x))) ++
          [(famOf isV6 m, Op.append table chain (dnatRuleOf m))]) ∧
      (∀ p ∈ (ms1.filter (eligibleMapping isV6 ipv6)).map
          (fun x => (famOf isV6 x, Op.append table chain (dnatRuleOf x))) ++
          [(famOf isV6 m, Op.append table chain (dnatRuleOf m))],
        ∃ (fam : Fam) (ru : Rule), p = (fam, Op.append table chain ru)) := by
  have h := addDNATRulesAux_failure isV6 table chain ipv6 m ms2 res rest hvm
    helig hres ms1 0 s hvalid hscript
  refine ⟨by simpa [addDNATRules] using h.1, by simpa [addDNATRules] using
    h.2.1, by simpa [addDNATRules, List.append_assoc] using h.2.2, ?_⟩
  intro p hpmem
  rcases List.mem_append.1 hpmem with hmap | hlast
  · obtain ⟨x, _, hx⟩ := List.mem_map.1 hmap
    exact ⟨famOf isV6 x, dnatRuleOf x, hx.symm⟩
  · rcases List.mem_singleton.1 hlast with h1
    exact ⟨famOf isV6 m, dnatRuleOf m, h1⟩

/-- Witness for C9: one successful append, then a failure on the second
mapping; the third mapping is never processed and the count is 1. -/
theorem addDNATRules_failure_spec_witness :
    (addDNATRules scriptExec false (fun ip => ip.toList.contains ':') "nat"
        "CANARY_DNAT"
        ([⟨"orders", 80, "TCP", "10.0.0.10", "10.0.1.10"⟩] ++
          ⟨"payment", 443, "TCP", "10.0.0.20", "10.0.1.20"⟩ ::
            [⟨"later", 9, "TCP", "10.0.0.30", "10.0.1.30"⟩])
        false (mkSt [RunResult.ok, RunResult.fail])).2.1 = 1 ∧
    (addDNATRules scriptExec false (fun ip => ip.toList.contains ':') "nat"
        "CANARY_DNAT"
        ([⟨"orders", 80, "TCP", "10.0.0.10", "10.0.1.10"⟩] ++
          ⟨"payment", 443, "TCP", "10.0.0.20", "10.0.1.20"⟩ ::
            [⟨"later", 9, "TCP", "10.0.0.30", "10.0.1.30"⟩])
        false (mkSt [RunResult.ok, RunResult.fail])).2.2 =
      some "add dnat rule for payment" := by
  have h := addDNATRules_failure_spec (fun ip => ip.toList.contains ':')
    "nat" "CANARY_DNAT" false
    [⟨"orders", 80, "TCP", "10.0.0.10", "10.0.1.10"⟩]
    ⟨"payment", 443, "TCP", "10.0.0.20", "10.0.1.20"⟩
    [⟨"later", 9, "TCP", "10.0.0.30", "10.0.1.30"⟩]
    RunResult.fail [] (mkSt [RunResult.ok, RunResult.fail])
    (by decide) (by decide) (by decide) (by decide) (by decide)
  exact ⟨by simpa using h.1, by simpa using h.2.1⟩

/-! ## C10 — CountDNATMappings error behaviour -/

/-- C10.  `CountDNATMappings` returns `(0, no error)` on a path that is
empty after trimming — identically for every filesystem, i.e. without
touching it — and whenever it reports an error (traversal, open failure,
scan failure) the returned count is 0. -/
theorem countDNATMappings_error_spec (fs fs2 : FileSys) (path : String) :
    (goTrimSpace path = "" →
      countDNATMappings fs path = (0, none) ∧
        countDNATMappings fs path = countDNATMappings fs2 path) ∧
    ((countDNATMappings fs path).2.isSome →
      (countDNATMappings fs path).1 = 0) := by
  constructor
  · intro h
    simp [countDNATMappings, h]
  · intro hsome
    by_cases h : goTrimSpace path = ""
    · have hcomp : countDNATMappings fs path = (0, none) := by
        simp [countDNATMappings, h]
      rw [hcomp] at hsome
      simp at hsome
    · rcases hval : validateDNATMapPath (goTrimSpace path) with _ | e
      · rcases hfs : fs (goTrimSpace path) with _ | _ | ⟨content, scanFail⟩
        · have hcomp : countDNATMappings fs path = (0, none) := by
            simp only [countDNATMappings]
            rw [if_neg h, hval, hfs]
          rw [hcomp]
        · have hcomp : countDNATMappings fs path =
              (0, some ("open dnat map " ++ goTrimSpace path)) := by
            simp only [countDNATMappings]
            rw [if_neg h, hval, hfs]
          rw [hcomp]
        · rcases hscan : scanFail with _ | _
          · subst hscan
            have hcomp : countDNATMappings fs path =
                (countLoop (scanLines content), none) := by
              simp only [countDNATMappings]
              rw [if_neg h, hval, hfs]
              rfl
            rw [hcomp] at hsome
            simp at hsome
          · subst hscan
            have hcomp : countDNATMappings fs path =
                (0, some ("scan dnat map " ++ goTrimSpace path)) := by
              simp only [countDNATMappings]
              rw [if_neg h, hval, hfs]
              rfl
            rw [hcomp]
      · have hcomp : countDNATMappings fs path = (0, some e) := by
          simp only [countDNATMappings]
          rw [if_neg h, hval]
        rw [hcomp]

/-- Witness for C10: a whitespace path counts zero against any
filesystem, and a traversal path errors with count 0. -/
theorem countDNATMappings_error_spec_witness :
    countDNATMappings (fun _ => FileOutcome.openFail) "   " = (0, none) ∧
      (countDNATMappings (fun _ => FileOutcome.openFail) "../etc/x").1 = 0 := by
  refine ⟨((countDNATMappings_error_spec (fun _ => FileOutcome.openFail)
    (fun _ => FileOutcome.notExist) "   ").1 (by decide)).1, ?_⟩
  exact (countDNATMappings_error_spec (fun _ => FileOutcome.openFail)
    (fun _ => FileOutcome.notExist) "../etc/x").2 (by decide)

/-! ## C5 — audit/count round trip -/

/-- Dropping while a predicate holds skips a fully-satisfying prefix. -/
theorem dropWhile_append_of_all {α : Type} (p : α → Bool) (l1 l2 : List α)
    (h : ∀ x ∈ l1, p x = true) :
    (l1 ++ l2).dropWhile p = l2.dropWhile p := by
  induction l1 with
  | nil => simp
  | cons a t ih =>
    have hpa := h a (List.mem_cons_self a t)
    simp only [List.cons_append, List.dropWhile, hpa]
    exact ih fun x hx => h x (List.mem_cons_of_mem a hx)

/-- Dropping while a predicate holds stops inside a prefix that is not
all-satisfying. -/
theorem dropWhile_append_of_ne {α : Type} (p : α → Bool) (l1 l2 : List α)
    (h : l1.dropWhile p ≠ []) :
    (l1 ++ l2).dropWhile p = l1.dropWhile p ++ l2 := by
  induction l1 with
  | nil => simp at h
  | cons a t ih =>
    by_cases hpa : p a = true
    · simp only [List.cons_append, List.dropWhile, hpa] at h ⊢
      exact ih h
    · have hpa2 : p a = false := by
        cases hq : p a
        · rfl
        · exact absurd hq hpa
      simp [List.dropWhile, hpa2]

/-- A trailing carriage return does not change the trimmed value. -/
theorem goTrimList_append_cr (xs : List Char) :
    goTrimList (xs ++ ['\r']) = goTrimList xs := by
  unfold goTrimList
  by_cases hall : ∀ x ∈ xs, goIsSpace x = true
  · have h1 : xs.dropWhile goIsSpace = [] :=
      List.dropWhile_eq_nil_iff.mpr hall
    have h2 : (xs ++ ['\r']).dropWhile goIsSpace = [] := by
      refine List.dropWhile_eq_nil_iff.mpr ?_
      intro x hx
      rcases List.mem_append.1 hx with hx1 | hx2
      · exact hall x hx1
      · rcases List.mem_singleton.1 hx2 with rfl
        decide
    rw [h1, h2]
  · have hne : xs.dropWhile goIsSpace ≠ [] := by
      intro hEq
      exact hall (List.dropWhile_eq_nil_iff.mp hEq)
    rw [dropWhile_append_of_ne goIsSpace xs ['\r'] hne]
    have hrev : (xs.dropWhile goIsSpace ++ ['\r']).reverse =
        '\r' :: (xs.dropWhile goIsSpace).reverse := by
      simp
    rw [hrev]
    have hrs : goIsSpace '\r' = true := by decide
    simp [List.dropWhile, hrs]

/-- Dropping one terminal carriage return (as `bufio.ScanLines` does)
does not change the trimmed value. -/
theorem goTrimList_dropLeadCR (cs : List Char) :
    goTrimList ((dropLeadCR cs.reverse).reverse) = goTrimList cs := by
  rcases hrev : cs.reverse with _ | ⟨c, t⟩
  · have hcs : cs = [] := List.reverse_eq_nil_iff.mp hrev
    subst hcs
    simp [dropLeadCR]
  · have hcs : cs = (c :: t).reverse := by
      rw [← hrev, List.reverse_reverse]
    by_cases hc : c = '\r'
    · subst hc
      subst hcs
      have hdrop : dropLeadCR ('\r' :: t) = t := by simp [dropLeadCR]
      rw [hdrop]
      have hsplit : ('\r' :: t).reverse = t.reverse ++ ['\r'] := by simp
      rw [hsplit, goTrimList_append_cr]
    · simp only [dropLeadCR, if_neg hc]
      rw [← hrev, List.reverse_reverse]

/-- A list containing a non-space character trims to something
non-empty. -/
theorem goTrimList_ne_nil (cs : List Char) (c : Char) (hc : c ∈ cs)
    (hns : goIsSpace c = false) : goTrimList cs ≠ [] := by
  intro hEq
  unfold goTrimList at hEq
  have h1 : ((cs.dropWhile goIsSpace).reverse.dropWhile goIsSpace) = [] :=
    List.reverse_eq_nil_iff.mp hEq
  have h2 : ∀ x ∈ (cs.dropWhile goIsSpace).reverse, goIsSpace x = true :=
    List.dropWhile_eq_nil_iff.mp h1
  have h3 : ∀ x ∈ cs.dropWhile goIsSpace, goIsSpace x = true := by
    intro x hx
    exact h2 x (List.mem_reverse.mpr hx)
  have hsplit : cs = cs.takeWhile goIsSpace ++ cs.dropWhile goIsSpace :=
    (List.takeWhile_append_dropWhile goIsSpace cs).symm
  rw [hsplit] at hc
  rcases List.mem_append.1 hc with hc1 | hc2
  · have := List.mem_takeWhile_imp hc1
    rw [hns] at this
    exact Bool.false_ne_true this
  · have := h3 c hc2
    rw [hns] at this
    exact Bool.false_ne_true this

/-- One `ScanLines` step: a newline-free chunk followed by a newline
yields one token (with a possible terminal `\r` stripped). -/
theorem scanLinesAux_line (line : List Char) :
    ∀ (racc rest : List Char), (∀ c ∈ line, ¬(c = '\n')) →
    scanLinesAux racc (line ++ '\n' :: rest) =
      String.mk (dropLeadCR (line.reverse ++ racc)).reverse ::
        scanLinesAux [] rest := by
  induction line with
  | nil => intro racc rest _; simp [scanLinesAux]
  | cons c cs ih =>
    intro racc rest h
    have hc : ¬(c = '\n') := h c (List.mem_cons_self c cs)
    have hcs : ∀ x ∈ cs, ¬(x = '\n') :=
      fun x hx => h x (List.mem_cons_of_mem c hx)
    have hstep : scanLinesAux racc ((c :: cs) ++ '\n' :: rest) =
        scanLinesAux (c :: racc) (cs ++ '\n' :: rest) := by
      simp [scanLinesAux, hc]
    rw [hstep, ih (c :: racc) rest hcs]
    have : cs.reverse ++ (c :: racc) = (c :: cs).reverse ++ racc := by
      simp
    rw [this]

/-- Scanning the record section of the audit file yields exactly one
token per mapping (the record line, with a terminal `\r` stripped). -/
theorem scanLinesAux_auditRecords (M : List ServiceMapping)
    (hnl : ∀ m ∈ M, ∀ c ∈ (recordLine m).data, ¬(c = '\n')) :
    scanLinesAux [] (auditRecords M).data =
      M.map (fun m =>
        String.mk (dropLeadCR ((recordLine m).data.reverse)).reverse) := by
  induction M with
  | nil => simp [auditRecords, scanLinesAux]
  | cons m rest ih =>
    have hdata : (auditRecords (m :: rest)).data =
        (recordLine m).data ++ '\n' :: (auditRecords rest).data := by
      show (recordLine m ++ "\n" ++ auditRecords rest).data = _
      rw [String.data_append, String.data_append]
      simp
    rw [hdata, scanLinesAux_line (recordLine m).data []
      (auditRecords rest).data (hnl m (List.mem_cons_self m rest))]
    rw [ih fun x hx c hc => hnl x (List.mem_cons_of_mem m hx) c hc]
    simp

/-- The counting fold shifted by an arbitrary start value. -/
theorem countLoop_shift (ls : List String) : ∀ n : Nat,
    List.foldl
      (fun count line =>
        let t := goTrimSpace line
        if t = "" || goHasPrefix t "#" then count else count + 1) n ls =
      n + countLoop ls := by
  induction ls with
  | nil => intro n; simp [countLoop]
  | cons l ls ih =>
    intro n
    show List.foldl _
      (if goTrimSpace l = "" || goHasPrefix (goTrimSpace l) "#" then n
        else n + 1) ls = n + countLoop (l :: ls)
    have hr : countLoop (l :: ls) =
        (if goTrimSpace l = "" || goHasPrefix (goTrimSpace l) "#" then 0
          else 0 + 1) + countLoop ls := by
      show List.foldl _
        (if goTrimSpace l = "" || goHasPrefix (goTrimSpace l) "#" then 0
          else 0 + 1) ls = _
      rw [ih]
    rw [ih, hr]
    by_cases hc : (goTrimSpace l = "" || goHasPrefix (goTrimSpace l) "#" :
      Bool) = true
    · simp [hc]
    · simp [hc]
      omega

/-- A line whose trimmed form is blank or a comment is not counted. -/
theorem countLoop_cons_skip (l : String) (ls : List String)
    (h : (goTrimSpace l = "" || goHasPrefix (goTrimSpace l) "#" : Bool) =
      true) : countLoop (l :: ls) = countLoop ls := by
  show List.foldl _
    (if goTrimSpace l = "" || goHasPrefix (goTrimSpace l) "#" then 0
      else 0 + 1) ls = countLoop ls
  rw [countLoop_shift, if_pos h]
  simp

/-- A line whose trimmed form is non-blank and not a comment is
counted. -/
theorem countLoop_cons_keep (l : String) (ls : List String)
    (h : (goTrimSpace l = "" || goHasPrefix (goTrimSpace l) "#" : Bool) =
      false) : countLoop (l :: ls) = countLoop ls + 1 := by
  show List.foldl _
    (if goTrimSpace l = "" || goHasPrefix (goTrimSpace l) "#" then 0
      else 0 + 1) ls = countLoop ls + 1
  have hne : ¬((goTrimSpace l = "" || goHasPrefix (goTrimSpace l) "#" :
      Bool) = true) := by
    rw [h]
    exact Bool.false_ne_true
  rw [countLoop_shift, if_neg hne]
  omega

/-- The trimmed scan token of a record line equals the trimmed record
line. -/
theorem goTrimSpace_token (line : String) :
    goTrimSpace (String.mk (dropLeadCR (line.data.reverse)).reverse) =
      goTrimSpace line := by
  show String.mk (goTrimList (dropLeadCR (line.data.reverse)).reverse) =
    String.mk (goTrimList line.data)
  rw [goTrimList_dropLeadCR]

/-- A record line always contains the colon separator. -/
theorem colon_mem_recordLine (m : ServiceMapping) :
    ':' ∈ (recordLine m).data := by
  show ':' ∈ (m.serviceName ++ ":" ++ toString m.port ++ "/" ++ m.protocol
    ++ " " ++ m.activeClusterIP ++ " -> " ++ m.previewClusterIP).data
  simp only [String.data_append]
  have hc : ':' ∈ (":" : String).data := by decide
  simp [hc]

/-- Counting the record tokens: one per mapping. -/
theorem countLoop_record_tokens (M : List ServiceMapping)
    (hhash : ∀ m ∈ M, goHasPrefix (goTrimSpace (recordLine m)) "#" = false) :
    countLoop (M.map (fun m =>
      String.mk (dropLeadCR ((recordLine m).data.reverse)).reverse)) =
      M.length := by
  induction M with
  | nil => simp [countLoop]
  | cons m rest ih =>
    have htrim := goTrimSpace_token (recordLine m)
    have hnonempty : ¬(goTrimSpace (recordLine m) = "") := by
      intro hEq
      have hdata := congrArg String.data hEq
      have : goTrimList (recordLine m).data = [] := hdata
      exact goTrimList_ne_nil (recordLine m).data ':'
        (colon_mem_recordLine m) (by decide) this
    have hcond : (goTrimSpace (String.mk
        (dropLeadCR ((recordLine m).data.reverse)).reverse) = "" ||
        goHasPrefix (goTrimSpace (String.mk
          (dropLeadCR ((recordLine m).data.reverse)).reverse)) "#" :
        Bool) = false := by
      rw [htrim, hhash m (List.mem_cons_self m rest),
        decide_eq_false hnonempty]
      rfl
    rw [List.map_cons, countLoop_cons_keep _ _ hcond,
      ih fun x hx => hhash x (List.mem_cons_of_mem m hx)]
    simp

/-- Counting the written audit file: the two header lines are skipped
and each record line is counted once. -/
theorem countLoop_writeDNATMap (M : List ServiceMapping)
    (hnl : ∀ m ∈ M, ∀ c ∈ (recordLine m).data, ¬(c = '\n'))
    (hhash : ∀ m ∈ M, goHasPrefix (goTrimSpace (recordLine m)) "#" = false) :
    countLoop (scanLines (writeDNATMap M)) = M.length := by
  have hdata : (writeDNATMap M).data =
      "# DNAT mappings generated by ghostwire-init".data ++ '\n' ::
        ("# Format: service:port/protocol active_ip -> preview_ip".data ++
          '\n' :: (auditRecords M).data) := by
    show (auditHeader ++ auditRecords M).data = _
    rw [String.data_append]
    have hh : auditHeader.data =
        "# DNAT mappings generated by ghostwire-init".data ++ '\n' ::
          ("# Format: service:port/protocol active_ip -> preview_ip".data ++
            ['\n']) := by decide
    rw [hh]
    simp
  rw [scanLines, hdata,
    scanLinesAux_line _ _ _ (by decide),
    scanLinesAux_line _ _ _ (by decide),
    scanLinesAux_auditRecords M hnl,
    countLoop_cons_skip _ _ (by decide),
    countLoop_cons_skip _ _ (by decide),
    countLoop_record_tokens M hhash]

/-- C5 counterexample.  The round trip fails as universally stated: for
a mapping whose service name begins with `#`, the written record line is
taken for a comment by the counter, so the count is 0 while the mapping
list has length 1. -/
theorem audit_roundtrip_counterexample :
    (countDNATMappings
        (fun p => if p = "/shared/dnat.map" then
          FileOutcome.file
            (writeDNATMap [⟨"#svc", 80, "TCP", "10.0.0.1", "10.0.0.2"⟩])
            false
          else FileOutcome.notExist)
        "/shared/dnat.map").1 ≠
      ([⟨"#svc", 80, "TCP", "10.0.0.1", "10.0.0.2"⟩] :
        List ServiceMapping).length := by
  decide

/-- C5 (amended).  For every list of mappings whose record lines contain
no newline character and do not read as comments after trimming (their
trimmed form does not start with `#`), counting the written audit file
with `CountDNATMappings` yields exactly the number of mappings, with no
error: the two-line header is skipped and each record line is counted
once. -/
theorem audit_roundtrip (M : List ServiceMapping)
    (hnl : ∀ m ∈ M, ∀ c ∈ (recordLine m).data, ¬(c = '\n'))
    (hhash : ∀ m ∈ M, goHasPrefix (goTrimSpace (recordLine m)) "#" = false) :
    countDNATMappings
        (fun p => if p = "/shared/dnat.map" then
          FileOutcome.file (writeDNATMap M) false else FileOutcome.notExist)
        "/shared/dnat.map" = (M.length, none) := by
  have htrim : goTrimSpace "/shared/dnat.map" = "/shared/dnat.map" := by
    decide
  have hval : validateDNATMapPath "/shared/dnat.map" = none := by decide
  simp only [countDNATMappings, htrim]
  rw [if_neg (by decide), hval]
  show (countLoop (scanLines (writeDNATMap M)), (none : Option String)) =
    (M.length, none)
  rw [countLoop_writeDNATMap M hnl hhash]

/-- Witness for the amended C5 at the two mappings of the repository's
own writer test. -/
theorem audit_roundtrip_witness :
    countDNATMappings
        (fun p => if p = "/shared/dnat.map" then
          FileOutcome.file
            (writeDNATMap
              [⟨"orders", 80, "TCP", "10.0.0.10", "10.0.1.10"⟩,
                ⟨"payment", 443, "TCP", "10.0.0.20", "10.0.1.20"⟩])
            false
          else FileOutcome.notExist)
        "/shared/dnat.map" = (2, none) :=
  audit_roundtrip
    [⟨"orders", 80, "TCP", "10.0.0.10", "10.0.1.10"⟩,
      ⟨"payment", 443, "TCP", "10.0.0.20", "10.0.1.20"⟩]
    (by decide) (by decide)

end Ghostwire
